import Mathlib

/-!
Verification of the XML-to-kinematic-tree parsing pipeline in
`x_xy/io/from_xml.py` (`load_sys_from_str` and its helpers).

The document model is a shallow embedding of the already-tokenized
`xml.etree.ElementTree` tree: an element is a tag, an ordered attribute
dictionary, and a list of child elements (the markup tokenizer itself is an
external collaborator).  Attribute values start as strings and are replaced
in place by numeric arrays during coercion, so a value is modelled as either
a string or a JAX-style array.  Arrays are 0-dimensional scalars or
1-dimensional vectors of exact rationals; the numeric claims under study are
structural (lengths, ids, which value ends up where) and never exercise
float rounding, so rationals are an exact model of the decimal literals that
occur.  Fallible Python code (assertions, `KeyError`, `IndexError`,
`TypeError`) is modelled with `Except`.
-/

/-- A JAX-style numeric array as produced by `jnp.squeeze(jnp.array([...]))`:
either a 0-dimensional scalar or a 1-dimensional vector. -/
inductive JArr where
  | scalar (x : ℚ)
  | vec (xs : List ℚ)
deriving DecidableEq, Repr

/-- An attribute value: the raw string from the document, or the numeric
array that `_convert_attrs_to_arrays` replaced it with. -/
inductive AttrVal where
  | str (s : String)
  | arr (a : JArr)
deriving DecidableEq, Repr

/-- An `xml.etree.ElementTree` element: tag, ordered attribute dictionary
(Python dicts preserve insertion order), children in document order. -/
inductive Element where
  | mk (tag : String) (attrib : List (String × AttrVal)) (children : List Element)

def Element.tag : Element → String
  | .mk t _ _ => t

def Element.attrib : Element → List (String × AttrVal)
  | .mk _ a _ => a

def Element.children : Element → List Element
  | .mk _ _ cs => cs

/-- Python `attrib[k]` lookup result (`None` models `KeyError`). -/
def getAttr (a : List (String × AttrVal)) (k : String) : Option AttrVal :=
  (a.find? fun kv => kv.1 == k).map fun kv => kv.2

/-- Python `k in attrib`. -/
def hasAttr (a : List (String × AttrVal)) (k : String) : Bool :=
  a.any fun kv => kv.1 == k

/-- The error taxonomy of the pipeline (spec section 7): every Python
`assert`, `KeyError`, `IndexError`/`TypeError` on arrays, and attribute
errors from missing singleton nodes is one of these fatal failures. -/
inductive Err where
  | structuralViolation
  | schemaViolation
  | conflictingOrientation
  | unknownJointType
  | unknownGeomShape
  | nonContiguousIds
  | missingAttribute (attr : String)
  | typeError
  | dimIndexError
  | emptySystem
deriving DecidableEq, Repr

deriving instance DecidableEq for Except

/-! ### Numeric literal parsing (`float(num) for num in v.split(" ")`) -/

/-- Value of a digit string (most significant first). -/
def digits_nat (l : List Char) : Nat :=
  l.foldl (fun a c => a * 10 + (c.toNat - 48)) 0

/-- The rational `sign * (ip.fp) * 10^e` for digit strings `ip`, `fp`,
built with a single `mkRat` so that it is always in normal form. -/
def dec_rat (sign : Int) (ip fp : List Char) (e : Int) : ℚ :=
  let M : Nat := digits_nat ip * 10 ^ fp.length + digits_nat fp
  let k : Int := e - fp.length
  if 0 ≤ k then mkRat (sign * M * 10 ^ k.toNat) 1
  else mkRat (sign * M) (10 ^ (-k).toNat)

/-- Exponent part after the `e`/`E`: optional sign, then digits. -/
def parse_exp_part (l : List Char) : Option Int :=
  match l with
  | '+' :: ds => if !ds.isEmpty && ds.all Char.isDigit then some (digits_nat ds : Int) else none
  | '-' :: ds => if !ds.isEmpty && ds.all Char.isDigit then some (-(digits_nat ds : Int)) else none
  | ds => if !ds.isEmpty && ds.all Char.isDigit then some (digits_nat ds : Int) else none

/-- Unsigned float literal: digits, optional `.digits` fraction, optional
`e`/`E` exponent; at least one digit in mantissa. -/
def parse_float_core (l : List Char) (sign : Int) : Option ℚ :=
  let mant := l.takeWhile fun c => !(c == 'e' || c == 'E')
  let rest := l.dropWhile fun c => !(c == 'e' || c == 'E')
  let ip := mant.takeWhile Char.isDigit
  let after := mant.dropWhile Char.isDigit
  let fpOpt : Option (List Char) :=
    match after with
    | [] => some []
    | '.' :: fp => if fp.all Char.isDigit then some fp else none
    | _ => none
  match fpOpt with
  | none => none
  | some fp =>
    if ip.isEmpty && fp.isEmpty then none
    else
      match rest with
      | [] => some (dec_rat sign ip fp 0)
      | _ :: er =>
        match parse_exp_part er with
        | none => none
        | some e => some (dec_rat sign ip fp e)

/-- Models Python `float(token)` on the finite decimal/scientific literals
appearing in these documents: optional surrounding whitespace, optional
sign, digits with optional fraction and exponent.  Specials (`inf`, `nan`,
digit underscores) do not occur in the documents under study and are
rejected by the model. -/
def parse_float_chars (w : List Char) : Option ℚ :=
  let t := ((w.dropWhile Char.isWhitespace).reverse.dropWhile Char.isWhitespace).reverse
  match t with
  | '+' :: r => parse_float_core r 1
  | '-' :: r => parse_float_core r (-1)
  | r => parse_float_core r 1

def parse_float (s : String) : Option ℚ :=
  parse_float_chars s.toList

/-- Python `v.split(" ")`: split at every single space character, keeping
empty tokens (so `"a  b"` has an empty middle token and `""` is `[""]`). -/
def split_spaces (l : List Char) : List (List Char) :=
  match l with
  | [] => [[]]
  | c :: r =>
    let rest := split_spaces r
    if c == ' ' then [] :: rest
    else
      match rest with
      | w :: ws => (c :: w) :: ws
      | [] => [[c]]

/-- `[float(num) for num in v.split(" ")]`: all tokens must parse, else the
comprehension raises and the bare `except` leaves the value unchanged. -/
def parse_all_floats : List (List Char) → Option (List ℚ)
  | [] => some []
  | w :: ws =>
    match parse_float_chars w, parse_all_floats ws with
    | some x, some xs => some (x :: xs)
    | _, _ => none

/-- `jnp.squeeze(jnp.array(array))`: a length-1 list becomes a 0-dimensional
scalar, every other length stays a 1-dimensional vector. -/
def squeeze (xs : List ℚ) : JArr :=
  match xs with
  | [x] => .scalar x
  | xs => .vec xs

/-- One attribute value under `_convert_attrs_to_arrays` (src lines 73-80):
try to parse the space-separated float literals; on success replace with the
squeezed array, on any failure leave the value unchanged.  Values that are
already arrays fail `v.split(" ")` with an attribute error caught by the
bare `except` and stay unchanged. -/
def coerce_val (v : AttrVal) : AttrVal :=
  match v with
  | .str s =>
    match parse_all_floats (split_spaces s.toList) with
    | some xs => .arr (squeeze xs)
    | none => .str s
  | v => v

/-! ### Generic traversals of the element tree

`subtree.iter()` visits a node and, recursively, all of its descendants;
the pipeline's validation, coercion and defaults-merge passes are each a
per-node operation applied along such a traversal. -/

mutual
/-- All nodes of the subtree satisfy the tag/attribute predicate. -/
def tree_all_nodes (p : String → List (String × AttrVal) → Bool) : Element → Bool
  | .mk t a cs => p t a && trees_all_nodes p cs

def trees_all_nodes (p : String → List (String × AttrVal) → Bool) : List Element → Bool
  | [] => true
  | c :: cs => tree_all_nodes p c && trees_all_nodes p cs
end

mutual
/-- Some node of the subtree satisfies the tag/attribute predicate. -/
def tree_any_nodes (p : String → List (String × AttrVal) → Bool) : Element → Bool
  | .mk t a cs => p t a || trees_any_nodes p cs

def trees_any_nodes (p : String → List (String × AttrVal) → Bool) : List Element → Bool
  | [] => false
  | c :: cs => tree_any_nodes p c || trees_any_nodes p cs
end

mutual
/-- Rewrite every node's attribute dictionary in place (tags and tree shape
are untouched), as the in-place mutating passes of the source do. -/
def tree_map_attrs (f : String → List (String × AttrVal) → List (String × AttrVal)) :
    Element → Element
  | .mk t a cs => .mk t (f t a) (trees_map_attrs f cs)

def trees_map_attrs (f : String → List (String × AttrVal) → List (String × AttrVal)) :
    List Element → List Element
  | [] => []
  | c :: cs => tree_map_attrs f c :: trees_map_attrs f cs
end

mutual
/-- `e.iter()`: the node followed by all descendants, in document order. -/
def tree_iter : Element → List Element
  | .mk t a cs => .mk t a cs :: trees_iter cs

def trees_iter : List Element → List Element
  | [] => []
  | c :: cs => tree_iter c ++ trees_iter cs
end

/-! ### `_find_assert_unique`, `_build_defaults_attributes` (src lines 9-34) -/

/-- `tree.findall(key)`: the direct children whose tag equals the key. -/
def find_all (e : Element) (k : String) : List Element :=
  e.children.filter fun c => c.tag == k

/-- `_find_assert_unique(tree, key, *keys)`: no match is `None`, more than
one match is an assertion failure, a unique match recurses on the rest of
the key path. -/
def find_assert_unique (e : Element) (k : String) (ks : List String) :
    Except Err (Option Element) :=
  match find_all e k, ks with
  | [], _ => .ok none
  | [v], [] => .ok (some v)
  | [v], k2 :: ks2 => find_assert_unique v k2 ks2
  | _, _ => .error .structuralViolation

/-- The per-tag default attribute dictionaries read from the `defaults`
subtree (`default_attrs` in the source). -/
structure DefaultAttrs where
  geom : List (String × AttrVal)
  body : List (String × AttrVal)
deriving DecidableEq, Repr

/-- `_build_defaults_attributes` for `tags = ["geom", "body"]`: a missing
`defaults` subtree or missing per-tag child yields an empty dictionary. -/
def build_defaults_attributes (tree : Element) : Except Err DefaultAttrs :=
  match find_assert_unique tree "defaults" ["geom"] with
  | .error e => .error e
  | .ok g =>
    match find_assert_unique tree "defaults" ["body"] with
    | .error e => .error e
    | .ok b =>
      .ok { geom := (g.map Element.attrib).getD [], body := (b.map Element.attrib).getD [] }

/-! ### `_assert_all_tags_attrs_valid` (src lines 37-51) -/

/-- The fixed whitelist of tags and their allowed attributes. -/
def valid_attrs (tag : String) : Option (List String) :=
  match tag with
  | "x_xy" => some ["model"]
  | "options" => some ["gravity", "dt"]
  | "defaults" => some ["geom", "body"]
  | "worldbody" => some []
  | "body" => some ["name", "pos", "quat", "euler", "joint", "armature", "damping"]
  | "geom" => some ["type", "mass", "pos", "dim"]
  | _ => none

/-- `attr.split("_")[0] == "vispy"`: the reserved visual-metadata key head. -/
def vispy_head (k : String) : Bool :=
  k.toList.takeWhile (fun c => !(c == '_')) == "vispy".toList

/-- One node's schema check: known tag, and every attribute in the tag's
whitelist, except `vispy`-headed attributes on `geom` nodes. -/
def node_ok (tag : String) (attrib : List (String × AttrVal)) : Bool :=
  match valid_attrs tag with
  | none => false
  | some allowed =>
    attrib.all fun kv => (tag == "geom" && vispy_head kv.1) || allowed.contains kv.1

/-- `_assert_all_tags_attrs_valid(xml_tree)`: the schema check over the
whole document; any violation is a `SchemaViolation`. -/
def assert_all_tags_attrs_valid (e : Element) : Except Err Unit :=
  if tree_all_nodes node_ok e then .ok () else .error .schemaViolation

/-! ### `_mix_in_defaults` (src lines 54-62) -/

/-- Inject each default attribute absent from the node, preserving existing
entries and appending new keys in the defaults' order (dict update). -/
def merge_attrs (attr d : List (String × AttrVal)) : List (String × AttrVal) :=
  d.foldl (fun acc kv => if acc.any fun kv2 => kv2.1 == kv.1 then acc else acc ++ [kv]) attr

/-- The per-node action of `_mix_in_defaults`: only `body` and `geom` nodes
are touched, each with its own default dictionary. -/
def mix_node (da : DefaultAttrs) (tag : String) (a : List (String × AttrVal)) :
    List (String × AttrVal) :=
  if tag == "body" then merge_attrs a da.body
  else if tag == "geom" then merge_attrs a da.geom
  else a

/-- `_mix_in_defaults(worldbody, default_attrs)` over `worldbody.iter()`. -/
def mix_in_defaults (da : DefaultAttrs) (e : Element) : Element :=
  tree_map_attrs (mix_node da) e

/-! ### `_convert_attrs_to_arrays`, `_vispy_subdict` (src lines 65-80) -/

/-- The per-node action of `_convert_attrs_to_arrays`: coerce every value,
keep keys and order. -/
def convert_node (_tag : String) (a : List (String × AttrVal)) : List (String × AttrVal) :=
  a.map fun kv => (kv.1, coerce_val kv.2)

/-- `_convert_attrs_to_arrays(xml_tree)` over `xml_tree.iter()`. -/
def convert_attrs_to_arrays (e : Element) : Element :=
  tree_map_attrs convert_node e

/-- `_vispy_subdict(attr)`: the `vispy`-headed entries with head and
separator stripped from the key. -/
def vispy_subdict (attr : List (String × AttrVal)) : List (String × AttrVal) :=
  (attr.filter fun kv => vispy_head kv.1).map fun kv =>
    (String.mk (kv.1.toList.drop
      ((kv.1.toList.takeWhile fun c => !(c == '_')).length + 1)), kv.2)

/-! ### Links, geometries, joint widths -/

/-- `base.Transform(pos, rot)`: position and rotation as stored (the array
coming from the attribute, or the documented defaults). -/
structure Transform where
  pos : AttrVal
  rot : AttrVal
deriving DecidableEq, Repr

/-- `base.Link(base.Transform(pos, rot))`. -/
structure Link where
  transform : Transform
deriving DecidableEq, Repr

/-- Modelled from the spec: `base.QD_WIDTHS`, the fixed joint-type to
degree-of-freedom width table, is in the external `base` module (not under
`src/`).  The spec names `free` and `hinge` joint types (spec sections 4.5
and 8); a free joint has the 6 velocity degrees of freedom and a hinge 1.
Unknown keys are the `UnknownJointType` failure. -/
def QD_WIDTHS (joint : String) : Option Nat :=
  match joint with
  | "free" => some 6
  | "hinge" => some 1
  | _ => none

/-- `base.QD_WIDTHS[body.attrib["joint"]]`: an array-valued joint attribute
is not a key of the table. -/
def qd_width (v : AttrVal) : Option Nat :=
  match v with
  | .str s => QD_WIDTHS s
  | .arr _ => none

/-- The DOF width a stored joint-type value denotes (0 for unknown). -/
def width_of (v : AttrVal) : Nat :=
  (qd_width v).getD 0

/-- `base.Box` / `base.Sphere` / `base.Cylinder` as constructed by the
`geom_map` lambdas (src lines 127-133): mass and position are passed
through, dimensions are read from the `dim` array (`*dim` unpacking for
box, `dim[0]` / `dim[1]` indexing otherwise), plus the vispy bag. -/
inductive Geom where
  | box (mass pos : AttrVal) (dim_x dim_y dim_z : ℚ) (vispy : List (String × AttrVal))
  | sphere (mass pos : AttrVal) (radius : ℚ) (vispy : List (String × AttrVal))
  | cylinder (mass pos : AttrVal) (radius height : ℚ) (vispy : List (String × AttrVal))
deriving DecidableEq, Repr

/-- The three known geometry shape keys of `geom_map`. -/
inductive GeomKind where
  | box
  | sphere
  | cylinder
deriving DecidableEq, Repr

/-- `geom_map[g_attr["type"]]`: unknown shape keys (and unhashable array
values) fail the lookup. -/
def geom_map (v : AttrVal) : Option GeomKind :=
  match v with
  | .str "box" => some .box
  | .str "sphere" => some .sphere
  | .str "cylinder" => some .cylinder
  | _ => none

/-- One `geom` child (src lines 135-140).  Evaluation order follows the
source line `geom_map[g_attr["type"]](g_attr["mass"], g_attr["pos"],
g_attr["dim"], _vispy_subdict(g_attr))`: type lookup, shape lookup, then
mass/pos/dim lookups, then the lambda body.  Inside the lambda, `*dim`
unpacking needs a 1-dimensional length-3 array, `dim[0]`/`dim[1]` indexing
needs a 1-dimensional nonempty array (indexing a 0-dimensional squeezed
scalar raises `IndexError`; an out-of-range index into a nonempty axis is
clamped by JAX, hence the `[r]` cylinder case).  Non-numeric `dim` values
are modelled as construction failures. -/
def build_geom (g_attr : List (String × AttrVal)) : Except Err Geom :=
  match getAttr g_attr "type" with
  | none => .error (.missingAttribute "type")
  | some ty =>
    match geom_map ty with
    | none => .error .unknownGeomShape
    | some kind =>
      match getAttr g_attr "mass" with
      | none => .error (.missingAttribute "mass")
      | some mass =>
        match getAttr g_attr "pos" with
        | none => .error (.missingAttribute "pos")
        | some pos =>
          match getAttr g_attr "dim" with
          | none => .error (.missingAttribute "dim")
          | some dim =>
            let vispy := vispy_subdict g_attr
            match kind, dim with
            | .box, .arr (.vec [dx, dy, dz]) => .ok (.box mass pos dx dy dz vispy)
            | .sphere, .arr (.vec (r :: _)) => .ok (.sphere mass pos r vispy)
            | .cylinder, .arr (.vec (r :: h :: _)) => .ok (.cylinder mass pos r h vispy)
            | .cylinder, .arr (.vec [r]) => .ok (.cylinder mass pos r r vispy)
            | _, _ => .error .dimIndexError

/-- The `for geom_subtree in body.findall("geom")` loop. -/
def build_geoms : List Element → Except Err (List Geom)
  | [] => .ok []
  | g :: gs =>
    match build_geom g.attrib with
    | .error e => .error e
    | .ok geom =>
      match build_geoms gs with
      | .error e => .error e
      | .ok rest => .ok (geom :: rest)

/-- `jnp.atleast_1d` on a damping/armature value: a 0-dimensional scalar
becomes a length-1 vector, a vector is unchanged, a string raises a
`TypeError` when converted to an array. -/
def atleast_1d : AttrVal → Except Err (List ℚ)
  | .arr (.scalar x) => .ok [x]
  | .arr (.vec xs) => .ok xs
  | .str _ => .error .typeError

/-! ### The recursive body walker `process_body` (src lines 102-149)

The Python closure mutates seven id-keyed dicts and a global link counter;
the state record carries exactly those.  Keys are `Int` because the counter
starts at `-1`.  New dict keys append in insertion order, and the counter is
always fresh, so every write is an append.  On the error paths the partial
dict contents are discarded by the failing `load_sys_from_str` call, so the
state is only threaded along the success path. -/

structure WalkSt where
  global_link_idx : Int
  links : List (Int × Link)
  link_parents : List (Int × Int)
  link_names : List (Int × AttrVal)
  link_types : List (Int × AttrVal)
  geoms : List (Int × List Geom)
  armatures : List (Int × List ℚ)
  dampings : List (Int × List ℚ)
deriving DecidableEq, Repr

/-- The fresh per-call state: empty dicts, counter at `-1`. -/
def init_st : WalkSt :=
  { global_link_idx := -1, links := [], link_parents := [], link_names := [],
    link_types := [], geoms := [], armatures := [], dampings := [] }

/-- The orientation resolution block (src lines 111-118): an explicit `quat`
wins but must not coexist with `euler`; an `euler` value goes through the
external degrees-to-quaternion collaborator `qe`; with neither attribute
present the orientation is the identity quaternion. -/
def resolve_rot (qe : AttrVal → AttrVal) (a : List (String × AttrVal)) : Except Err AttrVal :=
  match getAttr a "quat" with
  | some q => if hasAttr a "euler" then .error .conflictingOrientation else .ok q
  | none =>
    match getAttr a "euler" with
    | some eu => .ok (qe eu)
    | none => .ok (.arr (.vec [1, 0, 0, 0]))

mutual
/-- `process_body(body, parent)` (src lines 102-146), parametrized by the
external orientation collaborator `qe`, which models
`base.maths.quat_euler(jnp.deg2rad(euler_value))` applied to the stored
`euler` attribute value.  Lookup and failure order follows the source:
`joint` (line 108) and `name` (line 109) dict lookups, the quat/euler
conflict assert (lines 112-118), the `QD_WIDTHS` lookup (line 121),
`atleast_1d` on armature then damping (lines 124-125), then the geom loop
(lines 135-140), then recursion into child bodies (lines 143-144).  The
seven dict writes all use the fresh id, so on success they are appends. -/
def process_body (qe : AttrVal → AttrVal) (body : Element) (parent : Int) (st : WalkSt) :
    Except Err WalkSt :=
  match body with
  | .mk _t a cs =>
    let current := st.global_link_idx + 1
    match getAttr a "joint" with
    | none => .error (.missingAttribute "joint")
    | some joint =>
      match getAttr a "name" with
      | none => .error (.missingAttribute "name")
      | some name =>
        let pos := (getAttr a "pos").getD (.arr (.vec [0, 0, 0]))
        match resolve_rot qe a with
        | .error e => .error e
        | .ok rot =>
          match qd_width joint with
          | none => .error .unknownJointType
          | some qd_size =>
            let damping := (getAttr a "damping").getD (.arr (.vec (List.replicate qd_size 0)))
            let armature := (getAttr a "armature").getD (.arr (.vec (List.replicate qd_size 0)))
            match atleast_1d armature with
            | .error e => .error e
            | .ok armature1 =>
              match atleast_1d damping with
              | .error e => .error e
              | .ok damping1 =>
                match build_geoms (cs.filter fun c => c.tag == "geom") with
                | .error e => .error e
                | .ok link_geoms =>
                  let st1 : WalkSt :=
                    { global_link_idx := current,
                      links := st.links ++ [(current, ⟨⟨pos, rot⟩⟩)],
                      link_parents := st.link_parents ++ [(current, parent)],
                      link_names := st.link_names ++ [(current, name)],
                      link_types := st.link_types ++ [(current, joint)],
                      geoms := st.geoms ++ [(current, link_geoms)],
                      armatures := st.armatures ++ [(current, armature1)],
                      dampings := st.dampings ++ [(current, damping1)] }
                  process_bodies qe cs current st1

/-- The `for subbodies in body.findall("body")` / `for body in
worldbody.findall("body")` loops: iterate the children in document order,
processing exactly the `body`-tagged ones (`findall` filters by tag). -/
def process_bodies (qe : AttrVal → AttrVal) (bs : List Element) (parent : Int) (st : WalkSt) :
    Except Err WalkSt :=
  match bs with
  | [] => .ok st
  | b :: rest =>
    if b.tag == "body" then
      match process_body qe b parent st with
      | .error e => .error e
      | .ok st2 => process_bodies qe rest parent st2
    else process_bodies qe rest parent st
end

/-! ### Flattening and `base.System` (src lines 151-173) -/

/-- `assert_order_then_to_list(d)`: the insertion-ordered keys must be
exactly `0..len(d)-1`; then return the values in that order. -/
def assert_order_then_to_list {α : Type} (d : List (Int × α)) : Except Err (List α) :=
  if d.map Prod.fst = (List.range d.length).map Int.ofNat
  then .ok (d.map Prod.snd)
  else .error .nonContiguousIds

/-- `base.System` as constructed at src lines 160-171.  `links[0].batch(
*links[1:])` is external pytree batching of a nonempty list of links and is
modelled as the list itself (it raises `IndexError` on an empty list, see
`flatten_system`); the `False` literal is the positional flag argument. -/
structure System where
  link_parents : List Int
  links : List Link
  link_types : List AttrVal
  dampings : List ℚ
  armatures : List ℚ
  dt : AttrVal
  dynamic_flag : Bool
  geoms : List (List Geom)
  gravity : AttrVal
  link_names : List AttrVal
deriving DecidableEq, Repr

/-- Src lines 151-171: flatten the id-keyed dicts, batch the links,
concatenate dampings and armatures in id order, and build the `System`.
Order of fallible steps follows the source: links flattening and batching
(lines 155-156, `IndexError` on an empty system), dampings then armatures
(lines 157-158), then the `System(...)` arguments left to right —
`link_parents`, `link_types`, `options["dt"]`, `geoms`, `options["gravity"]`,
`link_names` (lines 161-170). -/
def flatten_system (options : List (String × AttrVal)) (st : WalkSt) : Except Err System :=
  match assert_order_then_to_list st.links with
  | .error e => .error e
  | .ok [] => .error .emptySystem
  | .ok (l0 :: lrest) =>
    match assert_order_then_to_list st.dampings with
    | .error e => .error e
    | .ok dampings_l =>
      match assert_order_then_to_list st.armatures with
      | .error e => .error e
      | .ok armatures_l =>
        match assert_order_then_to_list st.link_parents with
        | .error e => .error e
        | .ok parents =>
          match assert_order_then_to_list st.link_types with
          | .error e => .error e
          | .ok types =>
            match getAttr options "dt" with
            | none => .error (.missingAttribute "dt")
            | some dt =>
              match assert_order_then_to_list st.geoms with
              | .error e => .error e
              | .ok geoms_l =>
                match getAttr options "gravity" with
                | none => .error (.missingAttribute "gravity")
                | some gravity =>
                  match assert_order_then_to_list st.link_names with
                  | .error e => .error e
                  | .ok names =>
                    .ok { link_parents := parents, links := l0 :: lrest,
                          link_types := types, dampings := dampings_l.flatten,
                          armatures := armatures_l.flatten, dt := dt,
                          dynamic_flag := false, geoms := geoms_l,
                          gravity := gravity, link_names := names }

/-- `load_sys_from_str` (src lines 83-173) on an already-tokenized document
tree, parametrized by the external orientation collaborator `qe`.

Stage order follows the source exactly: the `options` lookup (line 85, an
attribute error on a missing node), the defaults multiplicity checks
(line 86), the `worldbody` lookup (line 87), schema validation (line 89),
in-place numeric coercion (line 90), defaults merge (line 91, an attribute
error if `worldbody` was missing), the root body loop (lines 148-149), and
flattening (lines 151-171).  The `options.attrib` and `default_attrs`
dictionaries captured before coercion alias the tree that line 90 mutates
in place; the functional model reproduces the aliasing by re-reading both
from the coerced tree.  The final `x_xy.io.parse_system(sys)` call is an
external post-processor (out of scope per the spec) and the constructed
`System` is returned as is. -/
def load_sys_from_str (qe : AttrVal → AttrVal) (xml_tree : Element) : Except Err System :=
  match find_assert_unique xml_tree "options" [] with
  | .error e => .error e
  | .ok none => .error .structuralViolation
  | .ok (some optionsEl) =>
    match build_defaults_attributes xml_tree with
    | .error e => .error e
    | .ok _ =>
      match find_assert_unique xml_tree "worldbody" [] with
      | .error e => .error e
      | .ok worldbodyOpt =>
        match assert_all_tags_attrs_valid xml_tree with
        | .error e => .error e
        | .ok _ =>
          let options := (convert_attrs_to_arrays optionsEl).attrib
          match build_defaults_attributes (convert_attrs_to_arrays xml_tree) with
          | .error e => .error e
          | .ok default_attrs =>
            match worldbodyOpt with
            | none => .error .structuralViolation
            | some wb =>
              let worldbody := mix_in_defaults default_attrs (convert_attrs_to_arrays wb)
              match process_bodies qe worldbody.children (-1) init_st with
              | .error e => .error e
              | .ok st => flatten_system options st

/-- A definite stand-in for the external orientation collaborator, used to
evaluate the pipeline on concrete documents (none of which carry `euler`,
so its value is never consulted). -/
def qe0 : AttrVal → AttrVal :=
  fun _ => .arr (.vec [1, 0, 0, 0])


/-! ### Basic facts about the tree combinators -/

@[simp] theorem Element.tag_mk (t : String) (a : List (String × AttrVal)) (cs : List Element) :
    (Element.mk t a cs).tag = t := rfl

@[simp] theorem Element.attrib_mk (t : String) (a : List (String × AttrVal)) (cs : List Element) :
    (Element.mk t a cs).attrib = a := rfl

@[simp] theorem Element.children_mk (t : String) (a : List (String × AttrVal)) (cs : List Element) :
    (Element.mk t a cs).children = cs := rfl

@[simp] theorem tree_all_nodes_mk (p : String → List (String × AttrVal) → Bool)
    (t : String) (a : List (String × AttrVal)) (cs : List Element) :
    tree_all_nodes p (.mk t a cs) = (p t a && trees_all_nodes p cs) := by
  rw [tree_all_nodes]

@[simp] theorem trees_all_nodes_nil (p : String → List (String × AttrVal) → Bool) :
    trees_all_nodes p [] = true := by
  rw [trees_all_nodes]

@[simp] theorem trees_all_nodes_cons (p : String → List (String × AttrVal) → Bool)
    (c : Element) (cs : List Element) :
    trees_all_nodes p (c :: cs) = (tree_all_nodes p c && trees_all_nodes p cs) := by
  rw [trees_all_nodes]

theorem trees_all_nodes_append (p : String → List (String × AttrVal) → Bool)
    (cs ds : List Element) :
    trees_all_nodes p (cs ++ ds) = (trees_all_nodes p cs && trees_all_nodes p ds) := by
  induction cs with
  | nil => simp
  | cons c cs ih => simp [ih, Bool.and_assoc]

/-- A node of the subtree list inherits the all-nodes property. -/
theorem trees_all_nodes_mem (p : String → List (String × AttrVal) → Bool)
    {cs : List Element} {c : Element} (hmem : c ∈ cs)
    (h : trees_all_nodes p cs = true) : tree_all_nodes p c = true := by
  induction cs with
  | nil => cases hmem
  | cons d ds ih =>
    rw [trees_all_nodes_cons, Bool.and_eq_true] at h
    rcases List.mem_cons.mp hmem with rfl | hmem2
    · exact h.1
    · exact ih hmem2 h.2

theorem tree_all_nodes_children (p : String → List (String × AttrVal) → Bool)
    {e : Element} {c : Element} (hmem : c ∈ e.children)
    (h : tree_all_nodes p e = true) : tree_all_nodes p c = true := by
  match e with
  | .mk t a cs =>
    rw [tree_all_nodes_mk, Bool.and_eq_true] at h
    exact trees_all_nodes_mem p hmem h.2

@[simp] theorem tree_any_nodes_mk (p : String → List (String × AttrVal) → Bool)
    (t : String) (a : List (String × AttrVal)) (cs : List Element) :
    tree_any_nodes p (.mk t a cs) = (p t a || trees_any_nodes p cs) := by
  rw [tree_any_nodes]

@[simp] theorem trees_any_nodes_nil (p : String → List (String × AttrVal) → Bool) :
    trees_any_nodes p [] = false := by
  rw [trees_any_nodes]

@[simp] theorem trees_any_nodes_cons (p : String → List (String × AttrVal) → Bool)
    (c : Element) (cs : List Element) :
    trees_any_nodes p (c :: cs) = (tree_any_nodes p c || trees_any_nodes p cs) := by
  rw [trees_any_nodes]

@[simp] theorem tree_map_attrs_mk (f : String → List (String × AttrVal) → List (String × AttrVal))
    (t : String) (a : List (String × AttrVal)) (cs : List Element) :
    tree_map_attrs f (.mk t a cs) = .mk t (f t a) (trees_map_attrs f cs) := by
  rw [tree_map_attrs]

@[simp] theorem trees_map_attrs_nil (f : String → List (String × AttrVal) → List (String × AttrVal)) :
    trees_map_attrs f [] = [] := by
  rw [trees_map_attrs]

@[simp] theorem trees_map_attrs_cons (f : String → List (String × AttrVal) → List (String × AttrVal))
    (c : Element) (cs : List Element) :
    trees_map_attrs f (c :: cs) = tree_map_attrs f c :: trees_map_attrs f cs := by
  rw [trees_map_attrs]

theorem trees_map_attrs_eq_map (f : String → List (String × AttrVal) → List (String × AttrVal))
    (cs : List Element) : trees_map_attrs f cs = cs.map (tree_map_attrs f) := by
  induction cs with
  | nil => simp
  | cons c cs ih => simp [ih]

@[simp] theorem tag_tree_map_attrs (f : String → List (String × AttrVal) → List (String × AttrVal))
    (e : Element) : (tree_map_attrs f e).tag = e.tag := by
  match e with
  | .mk t a cs => simp

@[simp] theorem attrib_tree_map_attrs (f : String → List (String × AttrVal) → List (String × AttrVal))
    (e : Element) : (tree_map_attrs f e).attrib = f e.tag e.attrib := by
  match e with
  | .mk t a cs => simp

@[simp] theorem children_tree_map_attrs (f : String → List (String × AttrVal) → List (String × AttrVal))
    (e : Element) : (tree_map_attrs f e).children = e.children.map (tree_map_attrs f) := by
  match e with
  | .mk t a cs => simp [trees_map_attrs_eq_map]

/-- Filtering by tag commutes with an attribute rewrite of every node. -/
theorem filter_tag_map_attrs (f : String → List (String × AttrVal) → List (String × AttrVal))
    (k : String) (cs : List Element) :
    (cs.map (tree_map_attrs f)).filter (fun c => c.tag == k) =
      (cs.filter fun c => c.tag == k).map (tree_map_attrs f) := by
  induction cs with
  | nil => simp
  | cons c cs ih =>
    by_cases hc : (c.tag == k) = true
    · simp [List.filter, hc, ih]
    · simp [List.filter, hc, Bool.not_eq_true _ ▸ hc, ih]

theorem find_all_tree_map_attrs (f : String → List (String × AttrVal) → List (String × AttrVal))
    (e : Element) (k : String) :
    find_all (tree_map_attrs f e) k = (find_all e k).map (tree_map_attrs f) := by
  rw [find_all, find_all, children_tree_map_attrs, filter_tag_map_attrs]

/-- `_find_assert_unique` commutes with an attribute rewrite of every node. -/
theorem find_assert_unique_tree_map_attrs
    (f : String → List (String × AttrVal) → List (String × AttrVal))
    (k : String) (ks : List String) (e : Element) :
    find_assert_unique (tree_map_attrs f e) k ks =
      Except.map (Option.map (tree_map_attrs f)) (find_assert_unique e k ks) := by
  induction ks generalizing k e with
  | nil =>
    rw [find_assert_unique.eq_def, find_assert_unique.eq_def, find_all_tree_map_attrs]
    cases hf : find_all e k with
    | nil => simp [Except.map]
    | cons v rest =>
      cases rest with
      | nil => simp [Except.map]
      | cons w rest2 => simp [Except.map]
  | cons k2 ks2 ih =>
    rw [find_assert_unique.eq_def, find_assert_unique.eq_def, find_all_tree_map_attrs]
    cases hf : find_all e k with
    | nil => simp [Except.map]
    | cons v rest =>
      cases rest with
      | nil => simpa using ih k2 v
      | cons w rest2 => simp [Except.map]

/-- An attribute rewrite of every node maps the all-nodes predicate to its
composition with the rewrite. -/
theorem tree_all_nodes_tree_map_attrs
    (p : String → List (String × AttrVal) → Bool)
    (f : String → List (String × AttrVal) → List (String × AttrVal)) :
    (∀ e : Element, tree_all_nodes p (tree_map_attrs f e) =
      tree_all_nodes (fun t a => p t (f t a)) e) ∧
    (∀ cs : List Element, trees_all_nodes p (trees_map_attrs f cs) =
      trees_all_nodes (fun t a => p t (f t a)) cs) := by
  constructor
  · intro e
    induction e using Element.rec
      (motive_2 := fun cs => trees_all_nodes p (trees_map_attrs f cs) =
        trees_all_nodes (fun t a => p t (f t a)) cs) with
    | mk t a cs ih => simp [ih]
    | nil => simp
    | cons c cs ihc ihcs => simp [ihc, ihcs]
  · intro cs
    induction cs with
    | nil => simp
    | cons c cs ih =>
      rw [trees_map_attrs_cons, trees_all_nodes_cons, trees_all_nodes_cons, ih]
      congr 1
      induction c using Element.rec
        (motive_2 := fun ds => trees_all_nodes p (trees_map_attrs f ds) =
          trees_all_nodes (fun t a => p t (f t a)) ds) with
      | mk t a ds ihd => simp [ihd]
      | nil => simp
      | cons d ds ihd ihds => simp [ihd, ihds]

/-! ### Attribute dictionary lemmas -/

theorem getAttr_eq_none_of_not_hasAttr {a : List (String × AttrVal)} {k : String}
    (h : hasAttr a k = false) : getAttr a k = none := by
  induction a with
  | nil => rfl
  | cons kv rest ih =>
    rw [hasAttr, List.any_cons, Bool.or_eq_false_iff] at h
    rw [getAttr, List.find?]
    rw [h.1]
    exact ih (by rw [hasAttr]; exact h.2)

theorem getAttr_append_some {a l : List (String × AttrVal)} {k : String} {v : AttrVal}
    (h : getAttr a k = some v) : getAttr (a ++ l) k = some v := by
  induction a with
  | nil => rw [getAttr] at h; simp at h
  | cons kv rest ih =>
    rw [getAttr, List.find?] at h
    rw [getAttr, List.cons_append, List.find?]
    cases hk : kv.1 == k with
    | true => rw [hk] at h; simpa using h
    | false =>
      rw [hk] at h
      exact ih h

theorem hasAttr_append (a l : List (String × AttrVal)) (k : String) :
    hasAttr (a ++ l) k = (hasAttr a k || hasAttr l k) := by
  rw [hasAttr, hasAttr, hasAttr, List.any_append]

@[simp] theorem merge_attrs_nil (a : List (String × AttrVal)) : merge_attrs a [] = a := rfl

theorem merge_attrs_cons (a : List (String × AttrVal)) (kv : String × AttrVal)
    (d : List (String × AttrVal)) :
    merge_attrs a (kv :: d) = merge_attrs (if hasAttr a kv.1 then a else a ++ [kv]) d := by
  rw [merge_attrs, List.foldl_cons, merge_attrs, hasAttr]

@[simp] theorem hasAttr_nil (k : String) : hasAttr [] k = false := rfl

@[simp] theorem hasAttr_cons (kv : String × AttrVal) (l : List (String × AttrVal)) (k : String) :
    hasAttr (kv :: l) k = (kv.1 == k || hasAttr l k) := by
  rw [hasAttr, List.any_cons, hasAttr]

/-- Key membership after the defaults merge: the merged dictionary has
exactly the keys of the node plus the keys of the defaults. -/
theorem hasAttr_merge_attrs (a d : List (String × AttrVal)) (k : String) :
    hasAttr (merge_attrs a d) k = (hasAttr a k || hasAttr d k) := by
  induction d generalizing a with
  | nil => simp
  | cons kv rest ih =>
    rw [merge_attrs_cons, ih]
    cases hp : hasAttr a kv.1 with
    | true =>
      rw [if_pos rfl]
      cases hk : kv.1 == k with
      | true =>
        have hkk : kv.1 = k := eq_of_beq hk
        subst hkk
        simp [hp]
      | false => simp [hk]
    | false =>
      rw [if_neg (by simp)]
      rw [hasAttr_append]
      simp [Bool.or_assoc]

/-- The defaults merge never overrides an explicitly present attribute. -/
theorem getAttr_merge_attrs_some {a : List (String × AttrVal)} (d : List (String × AttrVal))
    {k : String} {v : AttrVal} (h : getAttr a k = some v) :
    getAttr (merge_attrs a d) k = some v := by
  induction d generalizing a with
  | nil => simpa using h
  | cons kv rest ih =>
    rw [merge_attrs_cons]
    cases hp : hasAttr a kv.1 with
    | true => rw [if_pos rfl]; exact ih h
    | false =>
      rw [if_neg (by simp)]
      exact ih (getAttr_append_some h)

/-- Merging defaults whose keys are all present is the identity. -/
theorem merge_attrs_of_all_present {x : List (String × AttrVal)} {d : List (String × AttrVal)}
    (h : ∀ kv ∈ d, hasAttr x kv.1 = true) : merge_attrs x d = x := by
  induction d with
  | nil => simp
  | cons kv rest ih =>
    rw [merge_attrs_cons, if_pos (h kv (List.mem_cons_self kv rest))]
    exact ih fun kv2 hm => h kv2 (List.mem_cons_of_mem kv hm)

/-- Merging the same defaults twice is merging them once. -/
theorem merge_attrs_idem (a d : List (String × AttrVal)) :
    merge_attrs (merge_attrs a d) d = merge_attrs a d := by
  refine merge_attrs_of_all_present fun kv hm => ?_
  rw [hasAttr_merge_attrs]
  have : hasAttr d kv.1 = true := by
    rw [hasAttr]
    exact List.any_of_mem hm (by simp)
  simp [this]

theorem hasAttr_convert_node (t : String) (a : List (String × AttrVal)) (k : String) :
    hasAttr (convert_node t a) k = hasAttr a k := by
  rw [convert_node, hasAttr, hasAttr, List.any_map]
  rfl

/-! ### Equation and shape lemmas for the walker -/

@[simp] theorem process_bodies_nil (qe : AttrVal → AttrVal) (parent : Int) (st : WalkSt) :
    process_bodies qe [] parent st = .ok st := by
  rw [process_bodies]

theorem process_bodies_cons (qe : AttrVal → AttrVal) (b : Element) (rest : List Element)
    (parent : Int) (st : WalkSt) :
    process_bodies qe (b :: rest) parent st =
      if b.tag == "body" then
        match process_body qe b parent st with
        | .error e => .error e
        | .ok st2 => process_bodies qe rest parent st2
      else process_bodies qe rest parent st := by
  rw [process_bodies]

theorem resolve_rot_of_neither {qe : AttrVal → AttrVal} {a : List (String × AttrVal)}
    (hq : getAttr a "quat" = none) (he : getAttr a "euler" = none) :
    resolve_rot qe a = .ok (.arr (.vec [1, 0, 0, 0])) := by
  rw [resolve_rot, hq, he]

theorem resolve_rot_of_both {qe : AttrVal → AttrVal} {a : List (String × AttrVal)} {q : AttrVal}
    (hq : getAttr a "quat" = some q) (he : hasAttr a "euler" = true) :
    resolve_rot qe a = .error .conflictingOrientation := by
  rw [resolve_rot, hq, he]
  rfl

/-- The successful run of `process_body` on one node: which lookups must
have succeeded, the characterization of orientation and of the defaulted
damping/armature vectors, and the exact state handed to the child loop. -/
theorem process_body_ok (qe : AttrVal → AttrVal) (t : String) (a : List (String × AttrVal))
    (cs : List Element) (parent : Int) (st st' : WalkSt)
    (h : process_body qe (.mk t a cs) parent st = .ok st') :
    ∃ joint name rot qd armature1 damping1 link_geoms st1,
      getAttr a "joint" = some joint ∧
      getAttr a "name" = some name ∧
      resolve_rot qe a = .ok rot ∧
      qd_width joint = some qd ∧
      (getAttr a "damping" = none → damping1 = List.replicate qd 0) ∧
      (getAttr a "armature" = none → armature1 = List.replicate qd 0) ∧
      st1.global_link_idx = st.global_link_idx + 1 ∧
      st1.links = st.links ++ [(st.global_link_idx + 1,
        ⟨⟨(getAttr a "pos").getD (.arr (.vec [0, 0, 0])), rot⟩⟩)] ∧
      st1.link_parents = st.link_parents ++ [(st.global_link_idx + 1, parent)] ∧
      st1.link_names = st.link_names ++ [(st.global_link_idx + 1, name)] ∧
      st1.link_types = st.link_types ++ [(st.global_link_idx + 1, joint)] ∧
      st1.geoms = st.geoms ++ [(st.global_link_idx + 1, link_geoms)] ∧
      st1.armatures = st.armatures ++ [(st.global_link_idx + 1, armature1)] ∧
      st1.dampings = st.dampings ++ [(st.global_link_idx + 1, damping1)] ∧
      process_bodies qe cs (st.global_link_idx + 1) st1 = .ok st' := by
  rw [process_body] at h
  cases hj : getAttr a "joint" with
  | none => simp only [hj] at h; exact absurd h (by simp)
  | some joint =>
  simp only [hj] at h
  cases hn : getAttr a "name" with
  | none => simp only [hn] at h; exact absurd h (by simp)
  | some name =>
  simp only [hn] at h
  cases hr : resolve_rot qe a with
  | error e => simp only [hr] at h; exact absurd h (by simp)
  | ok rot =>
  simp only [hr] at h
  cases hw : qd_width joint with
  | none => simp only [hw] at h; exact absurd h (by simp)
  | some qd =>
  simp only [hw] at h
  cases ha : atleast_1d ((getAttr a "armature").getD (.arr (.vec (List.replicate qd 0)))) with
  | error e => simp only [ha] at h; exact absurd h (by simp)
  | ok armature1 =>
  simp only [ha] at h
  cases hd : atleast_1d ((getAttr a "damping").getD (.arr (.vec (List.replicate qd 0)))) with
  | error e => simp only [hd] at h; exact absurd h (by simp)
  | ok damping1 =>
  simp only [hd] at h
  cases hg : build_geoms (cs.filter fun c => c.tag == "geom") with
  | error e => simp only [hg] at h; exact absurd h (by simp)
  | ok link_geoms =>
  simp only [hg] at h
  refine ⟨joint, name, rot, qd, armature1, damping1, link_geoms, _,
    rfl, rfl, rfl, hw, ?_, ?_, rfl, rfl, rfl, rfl, rfl, rfl, rfl, rfl, h⟩
  · intro hnone
    rw [hnone] at hd
    rw [Option.getD_none, atleast_1d] at hd
    exact (Except.ok.injEq _ _).mp hd.symm
  · intro hnone
    rw [hnone] at ha
    rw [Option.getD_none, atleast_1d] at ha
    exact (Except.ok.injEq _ _).mp ha.symm

/-! ### The pre-order parent invariant (spec section 3, "Invariants") -/

/-- Every recorded parent id is `-1` or a link id, is strictly smaller than
the id of its entry, and all entry ids are at most the counter. -/
def parents_bounded (st : WalkSt) : Prop :=
  ∀ kp : Int × Int, kp ∈ st.link_parents → -1 ≤ kp.2 ∧ kp.2 < kp.1 ∧ kp.1 ≤ st.global_link_idx

mutual
/-- `process_body` appends one parent entry `(counter + 1, parent)` followed
by the descendants' entries, only extends the link dict, strictly advances
the counter, and preserves the parent-bound invariant. -/
theorem process_body_ext (qe : AttrVal → AttrVal) (b : Element) (parent : Int)
    (st st' : WalkSt) (h : process_body qe b parent st = .ok st') :
    (∃ rest, st'.link_parents = st.link_parents ++ (st.global_link_idx + 1, parent) :: rest) ∧
    (∃ ext, st'.links = st.links ++ ext) ∧
    st.global_link_idx < st'.global_link_idx ∧
    (parents_bounded st → -1 ≤ parent → parent ≤ st.global_link_idx → parents_bounded st') := by
  match b with
  | .mk t a cs =>
    obtain ⟨joint, name, rot, qd, armature1, damping1, link_geoms, st1,
      hj, hn, hr, hw, hdampc, harmc, hg1, hl1, hp1, hnm1, hty1, hgm1, har1, hdm1, hrec⟩ :=
      process_body_ok qe t a cs parent st st' h
    obtain ⟨hpar, ⟨e2, he2⟩, hm2, hpb2⟩ :=
      process_bodies_ext qe cs (st.global_link_idx + 1) st1 st' hrec
    rw [hg1] at hpar hm2 hpb2
    refine ⟨?_, ?_, ?_, ?_⟩
    · rcases hpar with heq | ⟨rest, hrest⟩
      · exact ⟨[], by rw [heq, hp1]⟩
      · exact ⟨(st.global_link_idx + 1 + 1, st.global_link_idx + 1) :: rest,
          by rw [hrest, hp1]; simp⟩
    · exact ⟨[(st.global_link_idx + 1,
        ⟨⟨(getAttr a "pos").getD (.arr (.vec [0, 0, 0])), rot⟩⟩)] ++ e2,
        by rw [he2, hl1, List.append_assoc]⟩
    · omega
    · intro hPB hb1 hb2
      refine hpb2 ?_ (by omega) (by omega)
      intro kp hmem
      rw [hp1] at hmem
      rcases List.mem_append.mp hmem with hold | hnew
      · obtain ⟨b1, b2, b3⟩ := hPB kp hold
        rw [hg1]
        exact ⟨b1, b2, by omega⟩
      · rcases List.mem_singleton.mp hnew with rfl
        rw [hg1]
        exact ⟨hb1, by omega, by omega⟩

/-- The child loop only appends parent entries (the first new one being
`(counter + 1, parent)` when any body is processed), only extends the link
dict, never decreases the counter, and preserves the parent bounds. -/
theorem process_bodies_ext (qe : AttrVal → AttrVal) (bs : List Element) (parent : Int)
    (st st' : WalkSt) (h : process_bodies qe bs parent st = .ok st') :
    (st' = st ∨
      ∃ rest, st'.link_parents = st.link_parents ++ (st.global_link_idx + 1, parent) :: rest) ∧
    (∃ ext, st'.links = st.links ++ ext) ∧
    st.global_link_idx ≤ st'.global_link_idx ∧
    (parents_bounded st → -1 ≤ parent → parent ≤ st.global_link_idx → parents_bounded st') := by
  match bs with
  | [] =>
    rw [process_bodies_nil] at h
    cases h
    exact ⟨Or.inl rfl, ⟨[], by simp⟩, le_refl _, fun hPB _ _ => hPB⟩
  | c :: rest =>
    rw [process_bodies_cons] at h
    by_cases hc : (c.tag == "body") = true
    · rw [if_pos hc] at h
      cases hp : process_body qe c parent st with
      | error e => rw [hp] at h; exact absurd h (by simp)
      | ok st1 =>
        rw [hp] at h
        obtain ⟨⟨r1, hr1⟩, ⟨e1, he1⟩, hm1, hpb1⟩ := process_body_ext qe c parent st st1 hp
        obtain ⟨hpar2, ⟨e2, he2⟩, hm2, hpb2⟩ := process_bodies_ext qe rest parent st1 st' h
        refine ⟨?_, ⟨e1 ++ e2, by rw [he2, he1, List.append_assoc]⟩, by omega, ?_⟩
        · rcases hpar2 with heq | ⟨r2, hr2⟩
          · exact Or.inr ⟨r1, by rw [heq, hr1]⟩
          · refine Or.inr ⟨r1 ++ (st1.global_link_idx + 1, parent) :: r2, ?_⟩
            rw [hr2, hr1]
            simp
        · intro hPB hb1 hb2
          exact hpb2 (hpb1 hPB hb1 hb2) hb1 (by omega)
    · rw [if_neg hc] at h
      exact process_bodies_ext qe rest parent st st' h
end

/-! ### The damping/armature DOF-length invariant (spec sections 3 and 8) -/

/-- Node predicate: a `body`-tagged node carries neither an explicit
`damping` nor an explicit `armature` attribute (other tags unrestricted). -/
def body_damping_free (t : String) (a : List (String × AttrVal)) : Bool :=
  !(t == "body") || (!hasAttr a "damping" && !hasAttr a "armature")

/-- No `body` node in the subtree carries `damping` or `armature`. -/
def no_damp_arm (e : Element) : Bool :=
  tree_all_nodes body_damping_free e

/-- Walker invariant: each link's stored damping and armature vectors have
exactly the DOF width of that link's stored joint type. -/
def dof_lengths (st : WalkSt) : Prop :=
  st.dampings.map (fun kv => kv.2.length) = st.link_types.map (fun kv => width_of kv.2) ∧
  st.armatures.map (fun kv => kv.2.length) = st.link_types.map (fun kv => width_of kv.2)

mutual
/-- Processing a body subtree in which no `body` node sets `damping` or
`armature` preserves the DOF-length invariant: the defaulted vectors are
`jnp.zeros((qd_size,))` of exactly the joint's DOF width. -/
theorem process_body_dof (qe : AttrVal → AttrVal) (b : Element) (parent : Int)
    (st st' : WalkSt) (htag : b.tag = "body") (hnd : no_damp_arm b = true)
    (hI : dof_lengths st) (h : process_body qe b parent st = .ok st') : dof_lengths st' := by
  match b with
  | .mk t a cs =>
    obtain ⟨joint, name, rot, qd, armature1, damping1, link_geoms, st1,
      hj, hn, hr, hw, hdampc, harmc, hg1, hl1, hp1, hnm1, hty1, hgm1, har1, hdm1, hrec⟩ :=
      process_body_ok qe t a cs parent st st' h
    have htag2 : t = "body" := htag
    subst htag2
    rw [no_damp_arm, tree_all_nodes_mk, Bool.and_eq_true] at hnd
    have hpred := hnd.1
    rw [body_damping_free] at hpred
    simp only [BEq.refl, Bool.not_true, Bool.false_or, Bool.and_eq_true,
      Bool.not_eq_true] at hpred
    have hdamp : damping1 = List.replicate qd 0 :=
      hdampc (getAttr_eq_none_of_not_hasAttr (Bool.not_eq_true' .. ▸ hpred.1))
    have harm : armature1 = List.replicate qd 0 :=
      harmc (getAttr_eq_none_of_not_hasAttr (Bool.not_eq_true' .. ▸ hpred.2))
    have hwidth : width_of joint = qd := by rw [width_of, hw]; rfl
    have hI1 : dof_lengths st1 := by
      constructor
      · rw [hdm1, hty1, List.map_append, List.map_append, hI.1]
        simp [hdamp, hwidth]
      · rw [har1, hty1, List.map_append, List.map_append, hI.2]
        simp [harm, hwidth]
    refine process_bodies_dof qe cs (st.global_link_idx + 1) st1 st' ?_ hI1 hrec
    intro c hmem
    exact trees_all_nodes_mem body_damping_free hmem hnd.2

/-- The child loop preserves the DOF-length invariant when every subtree in
the list is free of explicit `damping`/`armature` on `body` nodes. -/
theorem process_bodies_dof (qe : AttrVal → AttrVal) (bs : List Element) (parent : Int)
    (st st' : WalkSt) (hnd : ∀ c ∈ bs, no_damp_arm c = true)
    (hI : dof_lengths st) (h : process_bodies qe bs parent st = .ok st') : dof_lengths st' := by
  match bs with
  | [] =>
    rw [process_bodies_nil] at h
    cases h
    exact hI
  | c :: rest =>
    rw [process_bodies_cons] at h
    by_cases hc : (c.tag == "body") = true
    · rw [if_pos hc] at h
      cases hp : process_body qe c parent st with
      | error e => rw [hp] at h; exact absurd h (by simp)
      | ok st1 =>
        rw [hp] at h
        have hI1 : dof_lengths st1 :=
          process_body_dof qe c parent st st1 (eq_of_beq hc)
            (hnd c (List.mem_cons_self c rest)) hI hp
        exact process_bodies_dof qe rest parent st1 st'
          (fun d hd => hnd d (List.mem_cons_of_mem c hd)) hI1 h
    · rw [if_neg hc] at h
      exact process_bodies_dof qe rest parent st st'
        (fun d hd => hnd d (List.mem_cons_of_mem c hd)) hI h
end

/-! ### Splitting successful runs of the flattener and the loader -/

theorem assert_order_ok {α : Type} {d : List (Int × α)} {l : List α}
    (h : assert_order_then_to_list d = .ok l) :
    l = d.map Prod.snd ∧ d.map Prod.fst = (List.range d.length).map Int.ofNat := by
  rw [assert_order_then_to_list] at h
  by_cases hc : d.map Prod.fst = (List.range d.length).map Int.ofNat
  · rw [if_pos hc] at h
    cases h
    exact ⟨rfl, hc⟩
  · rw [if_neg hc] at h
    exact absurd h (by simp)

/-- What a successful `flatten_system` says about its output: each parallel
sequence is the id-ordered value list of its dict, the parent keys are
exactly `0..n-1`, the two concatenated vectors are the id-ordered
concatenations, and the system is nonempty. -/
theorem flatten_ok_split {options : List (String × AttrVal)} {st : WalkSt} {s : System}
    (h : flatten_system options st = .ok s) :
    s.link_parents = st.link_parents.map Prod.snd ∧
    st.link_parents.map Prod.fst = (List.range st.link_parents.length).map Int.ofNat ∧
    s.link_types = st.link_types.map Prod.snd ∧
    s.dampings = (st.dampings.map Prod.snd).flatten ∧
    s.armatures = (st.armatures.map Prod.snd).flatten ∧
    st.links ≠ [] := by
  rw [flatten_system] at h
  cases h1 : assert_order_then_to_list st.links with
  | error e => simp only [h1] at h; exact absurd h (by simp)
  | ok links_l =>
  cases links_l with
  | nil => simp only [h1] at h; exact absurd h (by simp)
  | cons l0 lrest =>
  simp only [h1] at h
  have hlinks : st.links ≠ [] := by
    intro hnil
    obtain ⟨hval, _⟩ := assert_order_ok h1
    rw [hnil] at hval
    simp at hval
  cases h2 : assert_order_then_to_list st.dampings with
  | error e => simp only [h2] at h; exact absurd h (by simp)
  | ok dampings_l =>
  simp only [h2] at h
  cases h3 : assert_order_then_to_list st.armatures with
  | error e => simp only [h3] at h; exact absurd h (by simp)
  | ok armatures_l =>
  simp only [h3] at h
  cases h4 : assert_order_then_to_list st.link_parents with
  | error e => simp only [h4] at h; exact absurd h (by simp)
  | ok parents =>
  simp only [h4] at h
  cases h5 : assert_order_then_to_list st.link_types with
  | error e => simp only [h5] at h; exact absurd h (by simp)
  | ok types =>
  simp only [h5] at h
  cases h6 : getAttr options "dt" with
  | none => simp only [h6] at h; exact absurd h (by simp)
  | some dt =>
  simp only [h6] at h
  cases h7 : assert_order_then_to_list st.geoms with
  | error e => simp only [h7] at h; exact absurd h (by simp)
  | ok geoms_l =>
  simp only [h7] at h
  cases h8 : getAttr options "gravity" with
  | none => simp only [h8] at h; exact absurd h (by simp)
  | some gravity =>
  simp only [h8] at h
  cases h9 : assert_order_then_to_list st.link_names with
  | error e => simp only [h9] at h; exact absurd h (by simp)
  | ok names =>
  simp only [h9] at h
  have hs := (Except.ok.injEq _ _).mp h
  subst hs
  obtain ⟨hp1, hp2⟩ := assert_order_ok h4
  obtain ⟨ht1, _⟩ := assert_order_ok h5
  obtain ⟨hd1, _⟩ := assert_order_ok h2
  obtain ⟨ha1, _⟩ := assert_order_ok h3
  exact ⟨hp1, hp2, ht1, by rw [hd1], by rw [ha1], hlinks⟩

/-- What a successful `load_sys_from_str` says about the pipeline stages it
ran, in the source's order. -/
theorem load_ok_split {qe : AttrVal → AttrVal} {tree : Element} {s : System}
    (h : load_sys_from_str qe tree = .ok s) :
    ∃ optionsEl wb da st,
      find_assert_unique tree "options" [] = .ok (some optionsEl) ∧
      find_assert_unique tree "worldbody" [] = .ok (some wb) ∧
      assert_all_tags_attrs_valid tree = .ok () ∧
      build_defaults_attributes (convert_attrs_to_arrays tree) = .ok da ∧
      process_bodies qe (mix_in_defaults da (convert_attrs_to_arrays wb)).children (-1) init_st
        = .ok st ∧
      flatten_system (convert_attrs_to_arrays optionsEl).attrib st = .ok s := by
  rw [load_sys_from_str] at h
  cases h1 : find_assert_unique tree "options" [] with
  | error e => simp only [h1] at h; exact absurd h (by simp)
  | ok oOpt =>
  cases oOpt with
  | none => simp only [h1] at h; exact absurd h (by simp)
  | some optionsEl =>
  simp only [h1] at h
  cases h2 : build_defaults_attributes tree with
  | error e => simp only [h2] at h; exact absurd h (by simp)
  | ok da0 =>
  simp only [h2] at h
  cases h3 : find_assert_unique tree "worldbody" [] with
  | error e => simp only [h3] at h; exact absurd h (by simp)
  | ok wbOpt =>
  simp only [h3] at h
  cases h4 : assert_all_tags_attrs_valid tree with
  | error e => simp only [h4] at h; exact absurd h (by simp)
  | ok u =>
  cases u
  simp only [h4] at h
  cases h5 : build_defaults_attributes (convert_attrs_to_arrays tree) with
  | error e => simp only [h5] at h; exact absurd h (by simp)
  | ok da =>
  simp only [h5] at h
  cases wbOpt with
  | none => simp at h
  | some wb =>
  simp only [] at h
  cases h6 : process_bodies qe
      (mix_in_defaults da (convert_attrs_to_arrays wb)).children (-1) init_st with
  | error e => simp only [h6] at h; exact absurd h (by simp)
  | ok st =>
  simp only [h6] at h
  exact ⟨optionsEl, wb, da, st, rfl, rfl, rfl, rfl, h6, h⟩

/-! ### More generic tree lemmas (monotonicity, composition) -/

theorem tree_all_nodes_mono {p q : String → List (String × AttrVal) → Bool}
    (hpq : ∀ t a, p t a = true → q t a = true) :
    ∀ e : Element, tree_all_nodes p e = true → tree_all_nodes q e = true := by
  intro e
  induction e using Element.rec
    (motive_2 := fun cs => trees_all_nodes p cs = true → trees_all_nodes q cs = true) with
  | mk t a cs ih =>
    intro h
    rw [tree_all_nodes_mk, Bool.and_eq_true] at h
    rw [tree_all_nodes_mk, Bool.and_eq_true]
    exact ⟨hpq t a h.1, ih h.2⟩
  | nil => simp
  | cons c cs ihc ihcs =>
    rename_i h
    rw [trees_all_nodes_cons, Bool.and_eq_true] at h
    rw [trees_all_nodes_cons, Bool.and_eq_true]
    exact ⟨ihc h.1, ihcs h.2⟩

theorem tree_all_nodes_false_of_any {p q : String → List (String × AttrVal) → Bool}
    (hpq : ∀ t a, q t a = true → p t a = false) :
    ∀ e : Element, tree_any_nodes q e = true → tree_all_nodes p e = false := by
  intro e
  induction e using Element.rec
    (motive_2 := fun cs => trees_any_nodes q cs = true → trees_all_nodes p cs = false) with
  | mk t a cs ih =>
    intro h
    rw [tree_any_nodes_mk, Bool.or_eq_true] at h
    rw [tree_all_nodes_mk]
    rcases h with h | h
    · rw [hpq t a h]
      simp
    · rw [ih h]
      simp
  | nil => rename_i h; simp at h
  | cons c cs ihc ihcs =>
    rename_i h
    rw [trees_any_nodes_cons, Bool.or_eq_true] at h
    rw [trees_all_nodes_cons]
    rcases h with h | h
    · rw [ihc h]
      simp
    · rw [ihcs h]
      simp

theorem tree_map_attrs_comp (f g : String → List (String × AttrVal) → List (String × AttrVal)) :
    ∀ e : Element, tree_map_attrs f (tree_map_attrs g e) =
      tree_map_attrs (fun t a => f t (g t a)) e := by
  intro e
  induction e using Element.rec
    (motive_2 := fun cs => trees_map_attrs f (trees_map_attrs g cs) =
      trees_map_attrs (fun t a => f t (g t a)) cs) with
  | mk t a cs ih => simp [ih]
  | nil => simp
  | cons c cs ihc ihcs => simp [ihc, ihcs]

theorem tree_map_attrs_congr {f g : String → List (String × AttrVal) → List (String × AttrVal)}
    (hfg : ∀ t a, f t a = g t a) :
    ∀ e : Element, tree_map_attrs f e = tree_map_attrs g e := by
  intro e
  induction e using Element.rec
    (motive_2 := fun cs => trees_map_attrs f cs = trees_map_attrs g cs) with
  | mk t a cs ih => simp [ih, hfg]
  | nil => simp
  | cons c cs ihc ihcs => simp [ihc, ihcs]

theorem tree_iter_tree_map_attrs (f : String → List (String × AttrVal) → List (String × AttrVal)) :
    ∀ e : Element, tree_iter (tree_map_attrs f e) = (tree_iter e).map (tree_map_attrs f) := by
  intro e
  induction e using Element.rec
    (motive_2 := fun cs => trees_iter (trees_map_attrs f cs) =
      (trees_iter cs).map (tree_map_attrs f)) with
  | mk t a cs ih =>
    rw [tree_map_attrs_mk, tree_iter, tree_iter, ih]
    simp
  | nil => rw [trees_map_attrs_nil, trees_iter]; simp [trees_iter]
  | cons c cs ihc ihcs =>
    rw [trees_map_attrs_cons, trees_iter, trees_iter, ihc, ihcs]
    simp

/-! ### Locating the defaults dictionaries in the document -/

theorem find_all_mem {e c : Element} {k : String} (h : c ∈ find_all e k) :
    c ∈ e.children ∧ c.tag = k := by
  rw [find_all] at h
  have := List.mem_filter.mp h
  exact ⟨this.1, eq_of_beq this.2⟩

theorem find_assert_unique_single {e v : Element} {k : String}
    (h : find_assert_unique e k [] = .ok (some v)) : find_all e k = [v] := by
  rw [find_assert_unique.eq_def] at h
  cases hf : find_all e k with
  | nil => rw [hf] at h; exact absurd h (by simp)
  | cons w rest =>
    cases rest with
    | nil =>
      rw [hf] at h
      simp only [Except.ok.injEq, Option.some.injEq] at h
      rw [h]
    | cons w2 rest2 => rw [hf] at h; exact absurd h (by simp)

/-- Where the `body` defaults dictionary comes from: either there is no
`defaults` subtree (or no `body` child), and it is empty, or it is the
attribute dictionary of the unique `defaults`-then-`body` element. -/
theorem build_defaults_body_attrib {tree : Element} {da : DefaultAttrs}
    (h : build_defaults_attributes tree = .ok da) :
    da.body = [] ∨
      ∃ d el, d ∈ find_all tree "defaults" ∧ el ∈ find_all d "body" ∧ da.body = el.attrib := by
  rw [build_defaults_attributes] at h
  cases h1 : find_assert_unique tree "defaults" ["geom"] with
  | error e => rw [h1] at h; exact absurd h (by simp)
  | ok g =>
  rw [h1] at h
  cases h2 : find_assert_unique tree "defaults" ["body"] with
  | error e => rw [h2] at h; exact absurd h (by simp)
  | ok b =>
  rw [h2] at h
  simp only [Except.ok.injEq] at h
  subst h
  cases b with
  | none => exact Or.inl rfl
  | some el =>
    refine Or.inr ?_
    rw [find_assert_unique.eq_def] at h2
    cases hf : find_all tree "defaults" with
    | nil => rw [hf] at h2; exact absurd h2 (by simp)
    | cons d rest =>
      cases rest with
      | nil =>
        rw [hf] at h2
        have h2b : find_assert_unique d "body" [] = .ok (some el) := h2
        have hel := find_assert_unique_single h2b
        exact ⟨d, el, List.mem_singleton.mpr rfl,
          by rw [hel]; exact List.mem_singleton.mpr rfl, rfl⟩
      | cons d2 rest2 => rw [hf] at h2; exact absurd h2 (by simp)

/-! ### A document with an empty `defaults` subtree versus none at all -/

/-- The node-level property at the root of a subtree. -/
theorem tree_all_nodes_head {p : String → List (String × AttrVal) → Bool} {e : Element}
    (h : tree_all_nodes p e = true) : p e.tag e.attrib = true := by
  match e with
  | .mk t a cs =>
    rw [tree_all_nodes_mk, Bool.and_eq_true] at h
    exact h.1

/-- The per-node defaults merge is idempotent. -/
theorem mix_node_idem (da : DefaultAttrs) (t : String) (a : List (String × AttrVal)) :
    mix_node da t (mix_node da t a) = mix_node da t a := by
  rw [mix_node, mix_node]
  by_cases hb : (t == "body") = true
  · rw [if_pos hb, if_pos hb]
    exact merge_attrs_idem a da.body
  · rw [if_neg hb, if_neg hb]
    by_cases hg : (t == "geom") = true
    · rw [if_pos hg, if_pos hg]
      exact merge_attrs_idem a da.geom
    · rw [if_neg hg, if_neg hg]

/-- Append one childless, attributeless `defaults` element at the end of the
root's children. -/
def add_empty_defaults (e : Element) : Element :=
  .mk e.tag e.attrib (e.children ++ [.mk "defaults" [] []])

theorem find_all_add_empty_defaults (t : Element) (k : String)
    (hk : ("defaults" == k) = false) :
    find_all (add_empty_defaults t) k = find_all t k := by
  rw [add_empty_defaults, find_all, find_all, Element.children_mk, List.filter_append]
  simp [hk]

theorem find_assert_unique_congr {e1 e2 : Element} {k : String} (ks : List String)
    (h : find_all e1 k = find_all e2 k) :
    find_assert_unique e1 k ks = find_assert_unique e2 k ks := by
  rw [find_assert_unique.eq_def, find_assert_unique.eq_def, h]

theorem find_all_defaults_add_empty (t : Element) (hnod : find_all t "defaults" = []) :
    find_all (add_empty_defaults t) "defaults" = [Element.mk "defaults" [] []] := by
  rw [add_empty_defaults, find_all, Element.children_mk, List.filter_append]
  rw [find_all] at hnod
  rw [hnod]
  simp

theorem build_defaults_of_no_defaults {t : Element} (hnod : find_all t "defaults" = []) :
    build_defaults_attributes t = .ok ⟨[], []⟩ := by
  rw [build_defaults_attributes, find_assert_unique.eq_def, hnod,
    find_assert_unique.eq_def, hnod]
  rfl

theorem build_defaults_add_empty {t : Element} (hnod : find_all t "defaults" = []) :
    build_defaults_attributes (add_empty_defaults t) = .ok ⟨[], []⟩ := by
  have hd := find_all_defaults_add_empty t hnod
  rw [build_defaults_attributes, find_assert_unique.eq_def, hd,
    find_assert_unique.eq_def, hd]
  rfl

theorem validate_add_empty_defaults (t : Element) :
    assert_all_tags_attrs_valid (add_empty_defaults t) = assert_all_tags_attrs_valid t := by
  match t with
  | .mk tg a cs =>
    rw [assert_all_tags_attrs_valid, assert_all_tags_attrs_valid, add_empty_defaults]
    rw [Element.tag_mk, Element.attrib_mk, Element.children_mk]
    rw [tree_all_nodes_mk, tree_all_nodes_mk, trees_all_nodes_append]
    have hdef : trees_all_nodes node_ok [Element.mk "defaults" [] []] = true := by decide
    rw [hdef, Bool.and_true]

theorem convert_add_empty_defaults (t : Element) :
    convert_attrs_to_arrays (add_empty_defaults t) =
      add_empty_defaults (convert_attrs_to_arrays t) := by
  match t with
  | .mk tg a cs =>
    rw [add_empty_defaults, convert_attrs_to_arrays, convert_attrs_to_arrays]
    rw [Element.tag_mk, Element.attrib_mk, Element.children_mk]
    rw [tree_map_attrs_mk, tree_map_attrs_mk, add_empty_defaults]
    rw [Element.tag_mk, Element.attrib_mk, Element.children_mk]
    rw [trees_map_attrs_eq_map, trees_map_attrs_eq_map, List.map_append]
    rfl

theorem find_all_convert_nil {t : Element} (hnod : find_all t "defaults" = []) :
    find_all (convert_attrs_to_arrays t) "defaults" = [] := by
  rw [convert_attrs_to_arrays, find_all_tree_map_attrs, hnod]
  rfl

/-- `load_sys_from_str` only looks at the document through these five stage
results; equal stages give equal runs. -/
theorem load_congr {qe : AttrVal → AttrVal} {t1 t2 : Element}
    (h1 : find_assert_unique t1 "options" [] = find_assert_unique t2 "options" [])
    (h2 : build_defaults_attributes t1 = build_defaults_attributes t2)
    (h3 : find_assert_unique t1 "worldbody" [] = find_assert_unique t2 "worldbody" [])
    (h4 : assert_all_tags_attrs_valid t1 = assert_all_tags_attrs_valid t2)
    (h5 : build_defaults_attributes (convert_attrs_to_arrays t1) =
      build_defaults_attributes (convert_attrs_to_arrays t2)) :
    load_sys_from_str qe t1 = load_sys_from_str qe t2 := by
  rw [load_sys_from_str, load_sys_from_str, h1, h2, h3, h4, h5]

/-! ### Concrete documents used to exercise the claims -/

/-- A two-link chain: root body `a` with child body `b`, both hinges, no
geoms, no defaults. -/
def doc_two_links : Element :=
  .mk "x_xy" [("model", .str "m")]
    [ .mk "options" [("gravity", .str "0 0 -9.81"), ("dt", .str "0.01")] [],
      .mk "worldbody" []
        [ .mk "body" [("name", .str "a"), ("joint", .str "hinge")]
            [ .mk "body" [("name", .str "b"), ("joint", .str "hinge")] [] ] ] ]

/-- The system `load_sys_from_str` produces for `doc_two_links`. -/
def sys_two_links : System :=
  { link_parents := [-1, 0],
    links := [⟨⟨.arr (.vec [0, 0, 0]), .arr (.vec [1, 0, 0, 0])⟩⟩,
              ⟨⟨.arr (.vec [0, 0, 0]), .arr (.vec [1, 0, 0, 0])⟩⟩],
    link_types := [.str "hinge", .str "hinge"],
    dampings := [0, 0],
    armatures := [0, 0],
    dt := .arr (.scalar (mkRat 1 100)),
    dynamic_flag := false,
    geoms := [[], []],
    gravity := .arr (.vec [0, 0, mkRat (-981) 100]),
    link_names := [.str "a", .str "b"] }

/-- One hinge body with an explicit two-entry damping vector. -/
def doc_c2 : Element :=
  .mk "x_xy" []
    [ .mk "options" [("gravity", .str "0 0 -9.81"), ("dt", .str "0.01")] [],
      .mk "worldbody" []
        [ .mk "body" [("name", .str "a"), ("joint", .str "hinge"),
            ("damping", .str "1.0 2.0")] [] ] ]

/-- The claim C3 scenario document: free body `a` at `pos "0 0 1"`, child
hinge body `b` owning one sphere geom with `dim "0.1"`. -/
def doc_c3 : Element :=
  .mk "x_xy" [("model", .str "m")]
    [ .mk "options" [("gravity", .str "0 0 -9.81"), ("dt", .str "0.01")] [],
      .mk "worldbody" []
        [ .mk "body" [("name", .str "a"), ("joint", .str "free"), ("pos", .str "0 0 1")]
            [ .mk "body" [("name", .str "b"), ("joint", .str "hinge")]
                [ .mk "geom" [("type", .str "sphere"), ("mass", .str "1.0"),
                              ("pos", .str "0 0 0"), ("dim", .str "0.1")] [] ] ] ] ]

/-- Defaults declare `body damping="0.1"`; one free-joint body omits
`damping`. -/
def doc_c4 : Element :=
  .mk "x_xy" []
    [ .mk "options" [("gravity", .str "0 0 -9.81"), ("dt", .str "0.01")] [],
      .mk "defaults" [] [ .mk "body" [("damping", .str "0.1")] [] ],
      .mk "worldbody" []
        [ .mk "body" [("name", .str "a"), ("joint", .str "free")] [] ] ]

/-- Defaults declare `body damping="0.1"`; hinge body `a` omits `damping`,
hinge body `b` sets `damping="0.5"` explicitly. -/
def doc_c4a : Element :=
  .mk "x_xy" []
    [ .mk "options" [("gravity", .str "0 0 -9.81"), ("dt", .str "0.01")] [],
      .mk "defaults" [] [ .mk "body" [("damping", .str "0.1")] [] ],
      .mk "worldbody" []
        [ .mk "body" [("name", .str "a"), ("joint", .str "hinge")] [],
          .mk "body" [("name", .str "b"), ("joint", .str "hinge"),
            ("damping", .str "0.5")] [] ] ]

/-- An unknown `motor` tag in a document that lacks the required `options`
singleton. -/
def doc_c6 : Element :=
  .mk "x_xy" [] [ .mk "motor" [] [] ]

/-- An unknown `motor` tag in a document whose structural singletons are all
present. -/
def doc_c6w : Element :=
  .mk "x_xy" []
    [ .mk "options" [("gravity", .str "0 0 -9.81"), ("dt", .str "0.01")] [],
      .mk "worldbody" [] [ .mk "motor" [] [] ] ]

/-- A body with neither `quat` nor `euler`. -/
def b_c5a : Element :=
  .mk "body" [("name", .str "a"), ("joint", .str "hinge")] []

/-- The walker state after processing `b_c5a` from the fresh state. -/
def st_c5a : WalkSt :=
  { global_link_idx := 0,
    links := [(0, ⟨⟨.arr (.vec [0, 0, 0]), .arr (.vec [1, 0, 0, 0])⟩⟩)],
    link_parents := [(0, -1)],
    link_names := [(0, .str "a")],
    link_types := [(0, .str "hinge")],
    geoms := [(0, [])],
    armatures := [(0, [0])],
    dampings := [(0, [0])] }

/-- A body carrying both `quat` and `euler`. -/
def b_c5b : Element :=
  .mk "body" [("name", .str "a"), ("joint", .str "hinge"),
    ("quat", .str "1 0 0 0"), ("euler", .str "0 0 90")] []

/-! ### The claims -/

/-- C1: for every document accepted by `load_sys_from_str`, the link ids
assigned by the recursive body traversal are dense and start at 0 (this is
exactly what the flattening assertion `assert_order_then_to_list` checks on
the id-keyed dicts, so acceptance implies it), they follow pre-order, and
the flattened parent sequence satisfies `-1 ≤ parents[i] < i` for every
link `i > 0`, while link 0 — the first root-level body, which like every
root-level body is processed with parent id `-1` — has `parents[0] = -1`. -/
theorem c1_preorder_parents (qe : AttrVal → AttrVal) (tree : Element) (s : System)
    (h : load_sys_from_str qe tree = .ok s) :
    s.link_parents.get? 0 = some (-1) ∧
    ∀ i p, 0 < i → s.link_parents.get? i = some p → -1 ≤ p ∧ p < (i : Int) := by
  obtain ⟨oEl, wb, da, st, _, _, _, _, hproc, hflat⟩ := load_ok_split h
  obtain ⟨hp1, hp2, _, _, _, hlinks⟩ := flatten_ok_split hflat
  obtain ⟨hpar, _, _, hpb⟩ := process_bodies_ext qe _ (-1) init_st st hproc
  have hPB0 : parents_bounded init_st := by
    intro kp hmem
    exact absurd hmem (List.not_mem_nil kp)
  have hPB : parents_bounded st := hpb hPB0 (by decide) (by decide)
  have hhead : ∃ rest, st.link_parents = (0, -1) :: rest := by
    rcases hpar with heq | ⟨rest, hrest⟩
    · exact absurd (by rw [heq]; rfl) hlinks
    · refine ⟨rest, ?_⟩
      rw [hrest]
      rfl
  constructor
  · obtain ⟨rest, hrest⟩ := hhead
    rw [hp1, hrest]
    rfl
  · intro i p hi hget
    rw [hp1, List.get?_map] at hget
    cases hkp : st.link_parents.get? i with
    | none => rw [hkp] at hget; exact absurd hget (by simp)
    | some kp =>
      rw [hkp] at hget
      have hp : kp.2 = p := by
        simpa using hget
      have hmem : kp ∈ st.link_parents := List.get?_mem hkp
      have hbound := hPB kp hmem
      have hilen : i < st.link_parents.length := by
        have := List.get?_eq_some.mp hkp
        exact this.1
      have hkey : kp.1 = (i : Int) := by
        have h1 : (st.link_parents.map Prod.fst).get? i = some kp.1 := by
          rw [List.get?_map, hkp]
          rfl
        rw [hp2, List.get?_map, List.get?_range (by simpa using hilen)] at h1
        simpa using h1.symm
      refine ⟨by rw [← hp]; exact hbound.1, ?_⟩
      rw [← hp, ← hkey]
      exact hbound.2.1

/-- C1 witness: the two-link document, evaluated concretely. -/
theorem c1_preorder_parents_witness :
    sys_two_links.link_parents.get? 0 = some (-1) ∧
    (-1 ≤ (0 : Int) ∧ (0 : Int) < ((1 : Nat) : Int)) := by
  have h := c1_preorder_parents qe0 doc_two_links sys_two_links (by decide)
  exact ⟨h.1, h.2 1 0 (by decide) (by decide)⟩

/-- C2 counterexample: the document `doc_c2` (one hinge body with explicit
`damping="1.0 2.0"`) is accepted, yet its concatenated damping vector has
length 2 while the armature vector has length 1 and the DOF sum over the
single hinge link is 1; the claimed equalities fail. -/
theorem c2_counterexample :
    (load_sys_from_str qe0 doc_c2).map
      (fun s => (s.dampings.length, s.armatures.length, s.link_types)) =
      .ok (2, 1, [.str "hinge"]) ∧
    qd_width (.str "hinge") = some 1 := by
  constructor
  · decide
  · decide

/-- C2 (amended): for every accepted document in which no `body` node sets
an explicit `damping` or `armature` attribute (neither directly nor via the
`defaults` subtree, whose `body` child is itself a `body` node of the
document), both concatenated vectors have length equal to the sum over all
links of the DOF width of that link's joint type.  With an explicit
attribute the stored vector keeps its own length instead, as the
counterexample shows. -/
theorem c2_dof_lengths (qe : AttrVal → AttrVal) (tree : Element) (s : System)
    (h : load_sys_from_str qe tree = .ok s) (hnd : no_damp_arm tree = true) :
    s.dampings.length = (s.link_types.map width_of).sum ∧
    s.armatures.length = (s.link_types.map width_of).sum := by
  obtain ⟨oEl, wb, da, st, _, hwb, _, hda, hproc, hflat⟩ := load_ok_split h
  obtain ⟨_, _, htypes, hdamp, harm, _⟩ := flatten_ok_split hflat
  rw [no_damp_arm] at hnd
  -- the predicate survives numeric coercion (keys are unchanged)
  have hconv : ∀ e : Element, tree_all_nodes body_damping_free e = true →
      tree_all_nodes body_damping_free (convert_attrs_to_arrays e) = true := by
    intro e he
    rw [convert_attrs_to_arrays, (tree_all_nodes_tree_map_attrs body_damping_free convert_node).1]
    refine tree_all_nodes_mono ?_ e he
    intro t a hta
    rw [body_damping_free] at hta ⊢
    rw [hasAttr_convert_node, hasAttr_convert_node]
    exact hta
  have hndc : tree_all_nodes body_damping_free (convert_attrs_to_arrays tree) = true :=
    hconv tree hnd
  -- the body defaults dictionary has no damping/armature key
  have hdab : hasAttr da.body "damping" = false ∧ hasAttr da.body "armature" = false := by
    rcases build_defaults_body_attrib hda with hempty | ⟨d, el, hd, hel, heq⟩
    · rw [hempty]
      exact ⟨rfl, rfl⟩
    · obtain ⟨hd_ch, _⟩ := find_all_mem hd
      obtain ⟨hel_ch, hel_tag⟩ := find_all_mem hel
      have h1 := tree_all_nodes_children body_damping_free hd_ch hndc
      have h2 := tree_all_nodes_children body_damping_free hel_ch h1
      have h3 := tree_all_nodes_head h2
      rw [body_damping_free, hel_tag] at h3
      simp only [BEq.refl, Bool.not_true, Bool.false_or, Bool.and_eq_true,
        Bool.not_eq_true] at h3
      rw [heq]
      exact ⟨Bool.not_eq_true' .. ▸ h3.1, Bool.not_eq_true' .. ▸ h3.2⟩
  -- the predicate survives the defaults merge
  have hwbmem := find_all_mem (by rw [find_assert_unique_single hwb]; exact List.mem_singleton.mpr rfl)
  have hndwb : tree_all_nodes body_damping_free wb = true :=
    tree_all_nodes_children body_damping_free hwbmem.1 hnd
  have hndwbc := hconv wb hndwb
  have hmix : tree_all_nodes body_damping_free
      (mix_in_defaults da (convert_attrs_to_arrays wb)) = true := by
    rw [mix_in_defaults, (tree_all_nodes_tree_map_attrs body_damping_free (mix_node da)).1]
    refine tree_all_nodes_mono ?_ _ hndwbc
    intro t a hta
    by_cases ht : (t == "body") = true
    · rw [body_damping_free, ht] at hta
      simp only [Bool.not_true, Bool.false_or, Bool.and_eq_true] at hta
      have hta1 : hasAttr a "damping" = false := Bool.not_eq_true' .. ▸ hta.1
      have hta2 : hasAttr a "armature" = false := Bool.not_eq_true' .. ▸ hta.2
      rw [body_damping_free, mix_node, ht]
      rw [if_pos rfl]
      rw [hasAttr_merge_attrs, hasAttr_merge_attrs, hta1, hta2, hdab.1, hdab.2]
      rfl
    · rw [body_damping_free]
      simp [ht]
  have hroots : ∀ c ∈ (mix_in_defaults da (convert_attrs_to_arrays wb)).children,
      no_damp_arm c = true := by
    intro c hc
    rw [no_damp_arm]
    exact tree_all_nodes_children body_damping_free hc hmix
  have hdof : dof_lengths st :=
    process_bodies_dof qe _ (-1) init_st st hroots ⟨rfl, rfl⟩ hproc
  constructor
  · calc s.dampings.length
        = ((st.dampings.map Prod.snd).map List.length).sum := by
          rw [hdamp, List.length_flatten]
      _ = (st.dampings.map (fun kv => kv.2.length)).sum := by rw [List.map_map]; rfl
      _ = (st.link_types.map (fun kv => width_of kv.2)).sum := by rw [hdof.1]
      _ = (s.link_types.map width_of).sum := by rw [htypes, List.map_map]; rfl
  · calc s.armatures.length
        = ((st.armatures.map Prod.snd).map List.length).sum := by
          rw [harm, List.length_flatten]
      _ = (st.armatures.map (fun kv => kv.2.length)).sum := by rw [List.map_map]; rfl
      _ = (st.link_types.map (fun kv => width_of kv.2)).sum := by rw [hdof.2]
      _ = (s.link_types.map width_of).sum := by rw [htypes, List.map_map]; rfl

/-- C2 witness: the two-link hinge document, evaluated concretely. -/
theorem c2_dof_lengths_witness :
    sys_two_links.dampings.length = (sys_two_links.link_types.map width_of).sum ∧
    sys_two_links.armatures.length = (sys_two_links.link_types.map width_of).sum :=
  c2_dof_lengths qe0 doc_two_links sys_two_links (by decide) (by decide)

/-- C3: on the claimed scenario document, `load_sys_from_str` does not
produce a 2-link tree at all: `_convert_attrs_to_arrays` squeezes the
single-literal `dim="0.1"` into a 0-dimensional array, and the sphere
constructor's `dim[0]` then raises `IndexError` ("too many indices" on a
0-dimensional array).  The damping/armature path guards the analogous
squeeze with `jnp.atleast_1d`, the geom path does not. -/
theorem c3_sphere_dim_crash :
    load_sys_from_str qe0 doc_c3 = .error .dimIndexError := by
  decide

/-- C4 counterexample: with `defaults` declaring `body damping="0.1"` and a
`free`-joint body omitting `damping`, the injected damping vector is the
coerced default `[0.1]` of length 1, not a vector of the free joint's DOF
width 6 filled with 0.1. -/
theorem c4_counterexample :
    (load_sys_from_str qe0 doc_c4).map (fun s => s.dampings) = .ok [mkRat 1 10] ∧
    qd_width (.str "free") = some 6 := by
  constructor
  · decide
  · decide

/-- C4 (amended): a body omitting `damping` receives the defaults' value
0.1 as the at-least-1-dimensional vector `[0.1]` of the default's own
length 1 — which equals the DOF width exactly when the joint type has one
degree of freedom, e.g. `hinge` — while a body explicitly setting
`damping="0.5"` keeps 0.5; for a multi-DOF joint the defaulted vector still
has length 1, as the counterexample shows. -/
theorem c4_defaults_damping :
    (load_sys_from_str qe0 doc_c4a).map (fun s => (s.dampings, s.link_types)) =
      .ok ([mkRat 1 10, mkRat 1 2], [.str "hinge", .str "hinge"]) ∧
    qd_width (.str "hinge") = some 1 := by
  constructor
  · decide
  · decide

/-- C5: a body node carrying neither `quat` nor `euler` gets the identity
quaternion `[1, 0, 0, 0]` as its link orientation, and a body node carrying
both fails with `ConflictingOrientation` (given that the `joint` and `name`
lookups of src lines 108-109, which the source runs first on the same node,
succeed). -/
theorem c5_orientation :
    (∀ (qe : AttrVal → AttrVal) (b : Element) (parent : Int) (st st' : WalkSt),
      process_body qe b parent st = .ok st' →
      getAttr b.attrib "quat" = none →
      getAttr b.attrib "euler" = none →
      ∃ posv rest, st'.links = st.links ++
        (st.global_link_idx + 1,
          Link.mk (Transform.mk posv (.arr (.vec [1, 0, 0, 0])))) :: rest) ∧
    (∀ (qe : AttrVal → AttrVal) (b : Element) (parent : Int) (st : WalkSt),
      (getAttr b.attrib "joint").isSome = true →
      (getAttr b.attrib "name").isSome = true →
      (getAttr b.attrib "quat").isSome = true →
      hasAttr b.attrib "euler" = true →
      process_body qe b parent st = .error .conflictingOrientation) := by
  constructor
  · intro qe b parent st st' h hq he
    match b with
    | .mk t a cs =>
      obtain ⟨joint, name, rot, qd, armature1, damping1, link_geoms, st1,
        hj, hn, hr, hw, _, _, _, hl1, _, _, _, _, _, _, hrec⟩ :=
        process_body_ok qe t a cs parent st st' h
      rw [Element.attrib_mk] at hq he
      rw [resolve_rot_of_neither hq he] at hr
      have hrot : rot = .arr (.vec [1, 0, 0, 0]) := by
        simpa using hr.symm
      obtain ⟨_, ⟨ext, hext⟩, _, _⟩ := process_bodies_ext qe cs _ st1 st' hrec
      refine ⟨(getAttr a "pos").getD (.arr (.vec [0, 0, 0])), ext, ?_⟩
      rw [hext, hl1, hrot, List.append_assoc]
      rfl
  · intro qe b parent st hj hn hq he
    match b with
    | .mk t a cs =>
      rw [Element.attrib_mk] at hj hn hq he
      obtain ⟨joint, hj⟩ := Option.isSome_iff_exists.mp hj
      obtain ⟨name, hn⟩ := Option.isSome_iff_exists.mp hn
      obtain ⟨q, hq⟩ := Option.isSome_iff_exists.mp hq
      rw [process_body]
      simp only [hj, hn, resolve_rot_of_both hq he]

/-- C5 witness: a hinge body with neither attribute gets the identity
orientation; the same body with both `quat` and `euler` fails. -/
theorem c5_orientation_witness :
    (∃ posv rest, st_c5a.links = init_st.links ++
      (init_st.global_link_idx + 1,
        Link.mk (Transform.mk posv (.arr (.vec [1, 0, 0, 0])))) :: rest) ∧
    process_body qe0 b_c5b (-1) init_st = .error .conflictingOrientation := by
  refine ⟨c5_orientation.1 qe0 b_c5a (-1) init_st st_c5a (by decide) (by decide) (by decide),
    c5_orientation.2 qe0 b_c5b (-1) init_st (by decide) (by decide) (by decide) (by decide)⟩

/-- C6 counterexample: the unknown `<motor/>` tag does not always surface
as a schema violation — `doc_c6` lacks the required `options` singleton,
whose lookup (src line 85) runs before `_assert_all_tags_attrs_valid`
(src line 89), so the parse fails with the structural error instead. -/
theorem c6_counterexample :
    load_sys_from_str qe0 doc_c6 = .error .structuralViolation ∧
    Err.structuralViolation ≠ Err.schemaViolation := by
  constructor
  · decide
  · decide

/-- C6 (amended): for every document that passes the structural singleton
lookups that the source runs first (unique `options` present, valid
`defaults` multiplicities, valid `worldbody` multiplicity), a tag outside
the allowed set anywhere makes `load_sys_from_str` fail with
`SchemaViolation`; in the model, exactly as at src lines 89-91, this
happens before numeric coercion, the defaults merge, and all tree
construction.  A document failing the structural lookups fails with
`StructuralViolation` first instead, as the counterexample shows. -/
theorem c6_schema_first (qe : AttrVal → AttrVal) (tree : Element)
    (h1 : ∃ o, find_assert_unique tree "options" [] = .ok (some o))
    (h2 : ∃ d, build_defaults_attributes tree = .ok d)
    (h3 : ∃ w, find_assert_unique tree "worldbody" [] = .ok w)
    (hbad : tree_any_nodes (fun t _ => (valid_attrs t).isNone) tree = true) :
    load_sys_from_str qe tree = .error .schemaViolation := by
  obtain ⟨o, h1⟩ := h1
  obtain ⟨d, h2⟩ := h2
  obtain ⟨w, h3⟩ := h3
  have hval : tree_all_nodes node_ok tree = false := by
    refine tree_all_nodes_false_of_any ?_ tree hbad
    intro t a hq
    rw [node_ok]
    cases hv : valid_attrs t with
    | none => rfl
    | some allowed => rw [hv] at hq; exact absurd hq (by simp)
  rw [load_sys_from_str]
  simp only [h1, h2, h3]
  rw [assert_all_tags_attrs_valid, hval]
  simp

/-- C6 witness: `doc_c6w` has its singletons in place and an unknown
`motor` tag, and fails with `SchemaViolation`. -/
theorem c6_schema_first_witness :
    load_sys_from_str qe0 doc_c6w = .error .schemaViolation :=
  c6_schema_first qe0 doc_c6w
    ⟨.mk "options" [("gravity", .str "0 0 -9.81"), ("dt", .str "0.01")] [], rfl⟩
    ⟨⟨[], []⟩, rfl⟩
    ⟨some (.mk "worldbody" [] [ .mk "motor" [] [] ]), rfl⟩
    (by decide)

/-- C7: numeric coercion visits every node of the document (the traversal
commutes with `iter()` and rewrites exactly the attribute values, keeping
keys and order), replaces every value whose space-separated tokens all
parse as float literals by the squeezed numeric array (a single literal
collapsing to a 0-dimensional scalar), and leaves every failing value
unchanged as its original string, raising no error in either case. -/
theorem c7_numeric_coercion :
    (∀ tree : Element, tree_iter (convert_attrs_to_arrays tree) =
      (tree_iter tree).map convert_attrs_to_arrays) ∧
    (∀ e : Element, (convert_attrs_to_arrays e).attrib =
      e.attrib.map fun kv => (kv.1, coerce_val kv.2)) ∧
    (∀ (s : String) (xs : List ℚ), parse_all_floats (split_spaces s.toList) = some xs →
      coerce_val (.str s) = .arr (squeeze xs)) ∧
    (∀ s : String, parse_all_floats (split_spaces s.toList) = none →
      coerce_val (.str s) = .str s) ∧
    (∀ x : ℚ, squeeze [x] = .scalar x) ∧
    (∀ xs : List ℚ, xs.length ≠ 1 → squeeze xs = .vec xs) ∧
    (∀ a : JArr, coerce_val (.arr a) = .arr a) := by
  refine ⟨?_, ?_, ?_, ?_, ?_, ?_, ?_⟩
  · intro tree
    rw [convert_attrs_to_arrays]
    exact tree_iter_tree_map_attrs convert_node tree
  · intro e
    rw [convert_attrs_to_arrays, attrib_tree_map_attrs]
    rfl
  · intro s xs hp
    rw [coerce_val, hp]
  · intro s hp
    rw [coerce_val, hp]
  · intro x
    rfl
  · intro xs h
    match xs with
    | [] => rfl
    | [x] => exact absurd rfl h
    | x :: y :: r => rfl
  · intro a
    rfl

/-- C7 witness: `"0 0 1"` coerces to a numeric vector, `"free"` stays a
string. -/
theorem c7_numeric_coercion_witness :
    coerce_val (.str "0 0 1") = .arr (squeeze [0, 0, 1]) ∧
    coerce_val (.str "free") = .str "free" :=
  ⟨c7_numeric_coercion.2.2.1 "0 0 1" [0, 0, 1] (by decide),
   c7_numeric_coercion.2.2.2.1 "free" (by decide)⟩

/-- C8: the defaults merge only fills absent attributes — an explicitly set
attribute always keeps its value — and consequently applying the same merge
twice to a document subtree equals applying it once. -/
theorem c8_defaults_merge :
    (∀ (a d : List (String × AttrVal)) (k : String) (v : AttrVal),
      getAttr a k = some v → getAttr (merge_attrs a d) k = some v) ∧
    (∀ (da : DefaultAttrs) (e : Element),
      mix_in_defaults da (mix_in_defaults da e) = mix_in_defaults da e) := by
  constructor
  · intro a d k v h
    exact getAttr_merge_attrs_some d h
  · intro da e
    unfold mix_in_defaults
    rw [tree_map_attrs_comp]
    exact tree_map_attrs_congr (fun t a => mix_node_idem da t a) e

/-- C8 witness: an explicit `damping="0.5"` survives a default
`damping="0.1"`. -/
theorem c8_defaults_merge_witness :
    getAttr (merge_attrs [("damping", .str "0.5")] [("damping", .str "0.1")]) "damping" =
      some (.str "0.5") :=
  c8_defaults_merge.1 [("damping", .str "0.5")] [("damping", .str "0.1")] "damping"
    (.str "0.5") (by decide)

/-- C9: a document with no `defaults` subtree has empty default sets and no
error; adding an empty `defaults` subtree also yields empty default sets
(covering the absent per-tag-child case) and leaves the loaded tree
identical — in particular for documents whose attributes are all explicit,
as the claim states, and in fact for every document. -/
theorem c9_empty_defaults (qe : AttrVal → AttrVal) (tree : Element)
    (hnod : find_all tree "defaults" = []) :
    build_defaults_attributes tree = .ok ⟨[], []⟩ ∧
    build_defaults_attributes (add_empty_defaults tree) = .ok ⟨[], []⟩ ∧
    load_sys_from_str qe (add_empty_defaults tree) = load_sys_from_str qe tree := by
  refine ⟨build_defaults_of_no_defaults hnod, build_defaults_add_empty hnod, ?_⟩
  refine load_congr ?_ ?_ ?_ ?_ ?_
  · exact find_assert_unique_congr [] (find_all_add_empty_defaults tree "options" (by decide))
  · rw [build_defaults_add_empty hnod, build_defaults_of_no_defaults hnod]
  · exact find_assert_unique_congr [] (find_all_add_empty_defaults tree "worldbody" (by decide))
  · exact validate_add_empty_defaults tree
  · rw [convert_add_empty_defaults, build_defaults_add_empty (find_all_convert_nil hnod),
      build_defaults_of_no_defaults (find_all_convert_nil hnod)]

/-- C9 witness: the two-link document with and without an empty `defaults`
subtree. -/
theorem c9_empty_defaults_witness :
    build_defaults_attributes doc_two_links = .ok ⟨[], []⟩ ∧
    build_defaults_attributes (add_empty_defaults doc_two_links) = .ok ⟨[], []⟩ ∧
    load_sys_from_str qe0 (add_empty_defaults doc_two_links) =
      load_sys_from_str qe0 doc_two_links :=
  c9_empty_defaults qe0 doc_two_links rfl

/-- C10: the walker requires `joint` and `name` on every body (in that
lookup order, src lines 108-109) and `type`, `mass`, `pos`, `dim` on every
geom (type first, then the remaining lookups in argument order, src lines
137-139); a missing attribute — after the defaults merge, since the walker
runs on the merged tree — fails the parse with the corresponding dict
lookup error instead of being defaulted, even though the schema whitelist
merely allows these attributes. -/
theorem c10_required_attrs :
    (∀ (qe : AttrVal → AttrVal) (b : Element) (parent : Int) (st : WalkSt),
      hasAttr b.attrib "joint" = false →
      process_body qe b parent st = .error (.missingAttribute "joint")) ∧
    (∀ (qe : AttrVal → AttrVal) (b : Element) (parent : Int) (st : WalkSt) (j : AttrVal),
      getAttr b.attrib "joint" = some j → hasAttr b.attrib "name" = false →
      process_body qe b parent st = .error (.missingAttribute "name")) ∧
    (∀ g_attr : List (String × AttrVal), hasAttr g_attr "type" = false →
      build_geom g_attr = .error (.missingAttribute "type")) ∧
    (∀ (g_attr : List (String × AttrVal)) (ty : AttrVal) (k : GeomKind),
      getAttr g_attr "type" = some ty → geom_map ty = some k →
      hasAttr g_attr "mass" = false →
      build_geom g_attr = .error (.missingAttribute "mass")) ∧
    (∀ (g_attr : List (String × AttrVal)) (ty m : AttrVal) (k : GeomKind),
      getAttr g_attr "type" = some ty → geom_map ty = some k →
      getAttr g_attr "mass" = some m → hasAttr g_attr "pos" = false →
      build_geom g_attr = .error (.missingAttribute "pos")) ∧
    (∀ (g_attr : List (String × AttrVal)) (ty m p : AttrVal) (k : GeomKind),
      getAttr g_attr "type" = some ty → geom_map ty = some k →
      getAttr g_attr "mass" = some m → getAttr g_attr "pos" = some p →
      hasAttr g_attr "dim" = false →
      build_geom g_attr = .error (.missingAttribute "dim")) := by
  refine ⟨?_, ?_, ?_, ?_, ?_, ?_⟩
  · intro qe b parent st h
    match b with
    | .mk t a cs =>
      rw [Element.attrib_mk] at h
      rw [process_body]
      simp only [getAttr_eq_none_of_not_hasAttr h]
  · intro qe b parent st j hj h
    match b with
    | .mk t a cs =>
      rw [Element.attrib_mk] at hj h
      rw [process_body]
      simp only [hj, getAttr_eq_none_of_not_hasAttr h]
  · intro g_attr h
    rw [build_geom]
    simp only [getAttr_eq_none_of_not_hasAttr h]
  · intro g_attr ty k hty hk h
    rw [build_geom]
    simp only [hty, hk, getAttr_eq_none_of_not_hasAttr h]
  · intro g_attr ty m k hty hk hm h
    rw [build_geom]
    simp only [hty, hk, hm, getAttr_eq_none_of_not_hasAttr h]
  · intro g_attr ty m p k hty hk hm hp h
    rw [build_geom]
    simp only [hty, hk, hm, hp, getAttr_eq_none_of_not_hasAttr h]

/-- C10 witness: each required attribute, removed in turn, produces its
lookup error. -/
theorem c10_required_attrs_witness :
    process_body qe0 (.mk "body" [] []) (-1) init_st = .error (.missingAttribute "joint") ∧
    process_body qe0 (.mk "body" [("joint", .str "hinge")] []) (-1) init_st =
      .error (.missingAttribute "name") ∧
    build_geom [] = .error (.missingAttribute "type") ∧
    build_geom [("type", .str "sphere")] = .error (.missingAttribute "mass") ∧
    build_geom [("type", .str "sphere"), ("mass", .arr (.scalar 1))] =
      .error (.missingAttribute "pos") ∧
    build_geom [("type", .str "sphere"), ("mass", .arr (.scalar 1)),
      ("pos", .arr (.vec [0, 0, 0]))] = .error (.missingAttribute "dim") := by
  refine ⟨c10_required_attrs.1 qe0 (.mk "body" [] []) (-1) init_st (by decide),
    c10_required_attrs.2.1 qe0 (.mk "body" [("joint", .str "hinge")] []) (-1) init_st
      (.str "hinge") (by decide) (by decide),
    c10_required_attrs.2.2.1 [] (by decide),
    c10_required_attrs.2.2.2.1 [("type", .str "sphere")] (.str "sphere") .sphere
      (by decide) (by decide) (by decide),
    c10_required_attrs.2.2.2.2.1 [("type", .str "sphere"), ("mass", .arr (.scalar 1))]
      (.str "sphere") (.arr (.scalar 1)) .sphere (by decide) (by decide) (by decide) (by decide),
    c10_required_attrs.2.2.2.2.2 [("type", .str "sphere"), ("mass", .arr (.scalar 1)),
      ("pos", .arr (.vec [0, 0, 0]))] (.str "sphere") (.arr (.scalar 1))
      (.arr (.vec [0, 0, 0])) .sphere (by decide) (by decide) (by decide) (by decide) (by decide)⟩
